import Mathlib

/-!
# Authentication core of the legal document management system

A shallow embedding of the route handlers of `src/backend/api/auth.js`
(register, login, logout, logout-all, password-reset request, password
reset) over an explicit store of user records, and of the grant-list update
of `src/frontend/src/components/DocumentList.js`, of the upload wizard of
`DocumentUpload.js` and of the protected route of `App.js`, followed by
theorems about them.

Conventions of the embedding:
* the user collection is a list of records in natural (insertion) order; a
  handler takes the store and returns its HTTP response with the new store;
* `Date.now()` and the random source are inputs (`now`, `fresh`);
* the password hashing primitive and `speakeasy.totp.verify` are external
  libraries and are parameters (`Primitives`);
* `await`ed store operations are modelled as reliable (they do not throw);
  the only `throw` reaching a `catch` is the one of `findByCredentials`;
  `loginUnder` is the login handler with a store operation that throws.
-/

set_option autoImplicit false

namespace LegalDms

/-! ## Data model -/

/-- One element of `user.tokens`; the handlers read its `token` field
(`token.token !== req.token`). -/
structure TokenEntry where
  token : String
deriving DecidableEq, Repr

/-- The fields of a user document that the handlers of `auth.js` read or write. -/
structure User where
  _id : Nat
  name : String
  email : String
  password : String
  role : String
  department : Option String
  mfaEnabled : Bool
  mfaSecret : Option String
  tokens : List TokenEntry
  resetPasswordToken : Option String
  resetPasswordExpires : Option Nat
  lastLogin : Option Nat
deriving DecidableEq, Repr

/-- The user collection, in natural order. -/
abbrev Store := List User

/-- The shapes of body the handlers send. -/
inductive Body where
  | error (error : String)
  | message (message : String)
  | requireMfa (message : String)
  | userToken (user : User) (token : String)
deriving DecidableEq, Repr

/-- An HTTP response: `res.status(n).send(body)`. -/
structure Response where
  status : Nat
  body : Body
deriving DecidableEq, Repr

/-- The options object of `speakeasy.totp.verify`. `window` is the optional
step-window option of the library. -/
structure TotpOptions where
  secret : Option String
  encoding : String
  token : String
  window : Option Nat
deriving DecidableEq, Repr

/-- The external primitives: password hashing and comparison, and
`speakeasy.totp.verify` (which reads the clock). -/
structure Primitives where
  hash : String → String
  compare : String → String → Bool
  totpVerify : TotpOptions → Nat → Bool

/-- The step window `speakeasy.totp.verify` works with: the `window` option,
which the library documents as defaulting to 0 when it is not given. -/
def speakeasyWindow (o : TotpOptions) : Nat :=
  o.window.getD 0

/-! ## Store operations -/

/-- `User.findOne(filter)`: the first document matching the filter. -/
def findOne (p : User → Bool) (s : Store) : Option User :=
  s.find? p

/-- Modelled from the spec: the case normalisation of emails by the schema of
the absent `models/user` ("email: unique, case-normalized string", "All
lookups are case-normalized on email"): an email is stored, and a filter on
it is cast, with its letters in lower case. -/
def normalizeEmail (email : String) : String :=
  String.mk (email.data.map Char.toLower)

/-- The filter `{ email }`, the email being cast by `normalizeEmail`. -/
def byEmail (email : String) (u : User) : Bool :=
  u.email == normalizeEmail email

/-- The filter `{ resetPasswordToken: token, resetPasswordExpires: { $gt: now } }`. -/
def holdsTicket (token : String) (now : Nat) (u : User) : Bool :=
  u.resetPasswordToken == some token &&
    (match u.resetPasswordExpires with
     | some e => decide (now < e)
     | none => false)

/-- Modelled from the spec: `save(Account) -> Account` (upsert) of the absent
`models/user`: the document with the same `_id` is replaced, a new document
is appended. -/
def save (u : User) (s : Store) : Store :=
  if s.any (fun v => v._id == u._id) then
    s.map (fun v => if v._id = u._id then u else v)
  else
    s ++ [u]

/-- The document stored under an `_id`. -/
def getById (id : Nat) (s : Store) : Option User :=
  s.find? (fun v => v._id == id)

/-- Modelled from the spec: the static `findByCredentials` of the absent
`models/user`: "resolves account by email; fails with `InvalidCredentials`
... if no match or hash mismatch". A failure is a thrown error. -/
def findByCredentials (P : Primitives) (s : Store) (email password : String) :
    Except String User :=
  match findOne (byEmail email) s with
  | none => .error "Unable to login"
  | some user =>
    if P.compare password user.password then .ok user else .error "Unable to login"

/-- Modelled from the spec: the method `generateAuthToken` of the absent
`models/user` (`issue`): "generates a fresh unguessable token, appends it to
the account's session set, persists, returns the token". -/
def generateAuthToken (fresh : String) (user : User) (s : Store) :
    String × User × Store :=
  let user1 := { user with tokens := user.tokens ++ [⟨fresh⟩] }
  (fresh, user1, save user1 s)

/-- Modelled from the spec: the pre-save hashing of a modified password in
the absent `models/user` ("replaces the secret hash"): assigning a plain
password and saving stores its hash. -/
def assignPassword (P : Primitives) (user : User) (password : String) : User :=
  { user with password := P.hash password }

/-! ## `POST /auth/login` -/

/-- The body of a login request. -/
structure LoginRequest where
  email : String
  password : String
  mfaToken : Option String
deriving DecidableEq, Repr

/-- JavaScript `!mfaToken`: the field is absent or the empty string. -/
def notProvided : Option String → Bool
  | none => true
  | some t => t == ""

/-- The options `login` passes to `speakeasy.totp.verify`:
`{ secret: user.mfaSecret, encoding: 'base32', token: mfaToken }`. -/
def mfaVerifyOptions (user : User) (mfaToken : Option String) : TotpOptions :=
  { secret := user.mfaSecret, encoding := "base32", token := mfaToken.getD "",
    window := none }

/-- Lines 50-70 of `auth.js`: the second-factor gate. `some r` is an early
`return res...`, `none` falls through to token generation. -/
def mfaGate (P : Primitives) (now : Nat) (user : User) (mfaToken : Option String) :
    Option Response :=
  if user.mfaEnabled then
    if notProvided mfaToken then
      some ⟨200, .requireMfa "MFA token required"⟩
    else
      let verified := P.totpVerify (mfaVerifyOptions user mfaToken) now
      if !verified then
        some ⟨401, .error "Invalid MFA token"⟩
      else
        none
  else
    none

/-- The `try` block of the login handler. -/
def loginBody (P : Primitives) (now : Nat) (fresh : String) (req : LoginRequest)
    (s : Store) : Except String (Response × Store) := do
  let user ← findByCredentials P s req.email req.password
  match mfaGate P now user req.mfaToken with
  | some r => pure (r, s)
  | none =>
    let (token, user1, s1) := generateAuthToken fresh user s
    let user2 := { user1 with lastLogin := some now }
    pure (⟨200, .userToken user2 token⟩, save user2 s1)

/-- The handler `router.post('/auth/login')`: the `try` block, with every
thrown error answered by `401 { error: 'Unable to login' }`. -/
def login (P : Primitives) (now : Nat) (fresh : String) (req : LoginRequest)
    (s : Store) : Response × Store :=
  match loginBody P now fresh req s with
  | .ok r => r
  | .error _ => (⟨401, .error "Unable to login"⟩, s)

/-! ## `POST /auth/passwordResetRequest` -/

/-- The message of the generic answer of the reset request. -/
def resetRequestMessage : String :=
  "If your email is registered, you will receive a password reset link"

/-- The `try` block of the reset-request handler. -/
def passwordResetRequestBody (now : Nat) (fresh : String) (email : String)
    (s : Store) : Except String (Response × Store) :=
  match findOne (byEmail email) s with
  | none => pure (⟨200, .message resetRequestMessage⟩, s)
  | some user =>
    let user1 := { user with resetPasswordToken := some fresh,
                             resetPasswordExpires := some (now + 3600000) }
    pure (⟨200, .message resetRequestMessage⟩, save user1 s)

/-- The handler `router.post('/auth/passwordResetRequest')`. -/
def passwordResetRequest (now : Nat) (fresh : String) (email : String)
    (s : Store) : Response × Store :=
  match passwordResetRequestBody now fresh email s with
  | .ok r => r
  | .error _ => (⟨500, .error "Server error"⟩, s)

/-! ## `POST /auth/passwordReset` -/

/-- The `try` block of the password-reset handler. -/
def passwordResetBody (P : Primitives) (now : Nat) (token password : String)
    (s : Store) : Except String (Response × Store) :=
  match findOne (holdsTicket token now) s with
  | none => pure (⟨400, .error "Password reset token is invalid or has expired"⟩, s)
  | some user =>
    let user1 := { assignPassword P user password with
                     resetPasswordToken := none, resetPasswordExpires := none }
    pure (⟨200, .message "Password has been updated"⟩, save user1 s)

/-- The handler `router.post('/auth/passwordReset')`. -/
def passwordReset (P : Primitives) (now : Nat) (token password : String)
    (s : Store) : Response × Store :=
  match passwordResetBody P now token password s with
  | .ok r => r
  | .error e => (⟨500, .error e⟩, s)

/-! ## `POST /auth/register` -/

/-- The body of a registration request. -/
structure RegisterRequest where
  name : String
  email : String
  password : String
  role : Option String
  department : Option String
deriving DecidableEq, Repr

/-- JavaScript `role || 'staff'`: the role, or `'staff'` when the field is
absent or the empty string. -/
def roleOrStaff : Option String → String
  | none => "staff"
  | some r => if r == "" then "staff" else r

/-- The document `new User({ name, email, password, role: role || 'staff',
department })` of auth.js 23-29, under a new `_id`. The fields the handler
does not set are empty: no second factor, no session, no ticket, no login. -/
def newUser (newId : Nat) (req : RegisterRequest) : User :=
  { _id := newId, name := req.name, email := req.email, password := req.password,
    role := roleOrStaff req.role, department := req.department, mfaEnabled := false,
    mfaSecret := none, tokens := [], resetPasswordToken := none,
    resetPasswordExpires := none, lastLogin := none }

/-- Modelled from the spec: what the absent `models/user` does to a new
document when it is saved: the email is case-normalized and the secret is
hashed ("hashes the secret, persists"). -/
def presave (P : Primitives) (user : User) : User :=
  { assignPassword P user user.password with email := normalizeEmail user.email }

/-- The account a registration of a new email stores and returns: the new
document as saved, with the issued token as its only session. -/
def registeredUser (P : Primitives) (newId : Nat) (fresh : String)
    (req : RegisterRequest) : User :=
  { presave P (newUser newId req) with tokens := [⟨fresh⟩] }

/-- Two emails differ in letter case only: they have the same length and
their characters agree position by position once put in lower case. -/
def sameUpToCase (a b : String) : Bool :=
  a.data.length == b.data.length &&
    (a.data.zip b.data).all (fun p => p.1.toLower == p.2.toLower)

/-- The `try` block of the registration handler. -/
def registerBody (P : Primitives) (newId : Nat) (fresh : String) (req : RegisterRequest)
    (s : Store) : Except String (Response × Store) :=
  match findOne (byEmail req.email) s with
  | some _ => pure (⟨400, .error "Email already in use"⟩, s)
  | none =>
    let user := presave P (newUser newId req)
    let s1 := save user s
    let (token, user1, s2) := generateAuthToken fresh user s1
    pure (⟨201, .userToken user1 token⟩, s2)

/-- The handler `router.post('/auth/register')`. -/
def register (P : Primitives) (newId : Nat) (fresh : String) (req : RegisterRequest)
    (s : Store) : Response × Store :=
  match registerBody P newId fresh req s with
  | .ok r => r
  | .error e => (⟨400, .error e⟩, s)

/-! ## `POST /auth/logout` and `POST /auth/logoutAll`

The `auth` middleware is not part of the sources read here: the account it
attaches as `req.user` and the presented token `req.token` are inputs. -/

/-- The session set without the entries of a token:
`tokens.filter(token => token.token !== req.token)`. -/
def revoke (tokens : List TokenEntry) (token : String) : List TokenEntry :=
  tokens.filter (fun t => t.token != token)

/-- The `try` block of the logout handler. -/
def logoutBody (user : User) (token : String) (s : Store) :
    Except String (Response × Store) :=
  let user1 := { user with tokens := revoke user.tokens token }
  pure (⟨200, .message "Logged out successfully"⟩, save user1 s)

/-- The handler `router.post('/auth/logout')`. -/
def logout (user : User) (token : String) (s : Store) : Response × Store :=
  match logoutBody user token s with
  | .ok r => r
  | .error e => (⟨500, .error e⟩, s)

/-- The `try` block of the logout-all handler. -/
def logoutAllBody (user : User) (s : Store) : Except String (Response × Store) :=
  let user1 := { user with tokens := [] }
  pure (⟨200, .message "Logged out of all sessions"⟩, save user1 s)

/-- The handler `router.post('/auth/logoutAll')`. -/
def logoutAll (user : User) (s : Store) : Response × Store :=
  match logoutAllBody user s with
  | .ok r => r
  | .error e => (⟨500, .error e⟩, s)

/-! ## Sharing a document (`DocumentList.js`) -/

/-- The `user` of a grant as the component meets it: a user document, whose
`_id` the lookup reads, or a bare id (what the component itself pushes), for
which `access.user._id` is `undefined`. -/
inductive Grantee where
  | document (_id : String)
  | id (id : String)
deriving DecidableEq, Repr

/-- One element of `document.accessRights`. -/
structure Access where
  user : Grantee
  permission : String
deriving DecidableEq, Repr

/-- JavaScript `access.user._id`. -/
def Grantee.idField : Grantee → Option String
  | .document i => some i
  | .id _ => none

/-- The account a grant refers to, in either shape. -/
def Grantee.key : Grantee → String
  | .document i => i
  | .id i => i

/-- The grant list `handleShareDocument` posts (lines 149-165): the copy of
`documentToShare.accessRights` in which the first grant whose
`access.user._id === selectedUser` gets the selected permission, or to which
a new grant is pushed when there is none. -/
def handleShareDocument (accessRights : List Access)
    (selectedUser selectedPermission : String) : List Access :=
  match accessRights.findIdx? (fun access => access.user.idField == some selectedUser) with
  | some existingAccessIndex =>
    accessRights.modify (fun access => { access with permission := selectedPermission })
      existingAccessIndex
  | none => accessRights ++ [{ user := .id selectedUser, permission := selectedPermission }]

/-! ## Login with a failing store

The awaited store operations of the login handler, in order: the lookup of
`findByCredentials`, the save inside `generateAuthToken`, and the final
`user.save()`. A fault makes one of them throw; the `catch` of the handler
answers it. -/

/-- The awaited store operation of login that throws. -/
inductive StoreFault where
  | lookup
  | issue
  | save
deriving DecidableEq, Repr

/-- The `try` block of the login handler when the store operation `fault`
(if any) throws. An error carries the store as it is when thrown. -/
def loginBodyUnder (fault : Option StoreFault) (P : Primitives) (now : Nat)
    (fresh : String) (req : LoginRequest) (s : Store) :
    Except (String × Store) (Response × Store) :=
  if fault = some .lookup then
    .error ("store unavailable", s)
  else
    match findByCredentials P s req.email req.password with
    | .error e => .error (e, s)
    | .ok user =>
      match mfaGate P now user req.mfaToken with
      | some r => .ok (r, s)
      | none =>
        if fault = some .issue then
          .error ("store unavailable", s)
        else
          let (token, user1, s1) := generateAuthToken fresh user s
          let user2 := { user1 with lastLogin := some now }
          if fault = some .save then
            .error ("store unavailable", s1)
          else
            .ok (⟨200, .userToken user2 token⟩, save user2 s1)

/-- The login handler when the store operation `fault` (if any) throws: the
`catch` of auth.js 81-84 answers every error alike. -/
def loginUnder (fault : Option StoreFault) (P : Primitives) (now : Nat)
    (fresh : String) (req : LoginRequest) (s : Store) : Response × Store :=
  match loginBodyUnder fault P now fresh req s with
  | .ok r => r
  | .error (_, s1) => (⟨401, .error "Unable to login"⟩, s1)

/-! ## Access control -/

/-- The operations and permission levels of the access control model. -/
inductive Permission where
  | read
  | write
  | delete
deriving DecidableEq, Repr

/-- A grant of a document: the grantee and the permission level. -/
structure Grant where
  grantee : String
  permissionLevel : Permission
deriving DecidableEq, Repr

/-- A document as far as access control reads it. -/
structure Document where
  owner : String
  accessRights : List Grant
deriving DecidableEq, Repr

/-- The outcome of an access check. -/
inductive Decision where
  | allow
  | deny
deriving DecidableEq, Repr

/-- The position of a level in the ordering delete ⊇ write ⊇ read. -/
def Permission.rank : Permission → Nat
  | .read => 0
  | .write => 1
  | .delete => 2

/-- Modelled from the spec: `authorize` of the access control engine, which
is in no source file read here (§4.5): "if `identity == document.owner`,
Allow unconditionally for any operation. Otherwise, look up `identity` in
`document.accessRights`; if absent, Deny. If present with permission level
`p`, Allow iff `p` satisfies the requested operation under the ordering
delete ⊇ write ⊇ read". -/
def authorize (identity : String) (document : Document) (operation : Permission) :
    Decision :=
  if identity = document.owner then
    .allow
  else
    match document.accessRights.find? (fun g => g.grantee == identity) with
    | none => .deny
    | some g => if operation.rank ≤ g.permissionLevel.rank then .allow else .deny

/-- The reference rule in the words of the spec, level by level: "a grant of
`delete` authorizes read, write, and delete; `write` authorizes read and
write but not delete; `read` authorizes only read". -/
def covers : Permission → Permission → Bool
  | .delete, _ => true
  | .write, .read => true
  | .write, .write => true
  | .write, .delete => false
  | .read, .read => true
  | .read, _ => false

/-- The reference rule: the owner is allowed everything, an identity without
grant nothing, a grantee what the level of the grant covers. -/
def authorizeReference (identity : String) (document : Document)
    (operation : Permission) : Decision :=
  if identity = document.owner then
    .allow
  else
    match document.accessRights.find? (fun g => g.grantee == identity) with
    | none => .deny
    | some g => if covers g.permissionLevel operation then .allow else .deny

/-! ## The upload wizard (`DocumentUpload.js`) -/

/-- A dropped file as `onDrop` reads it. -/
structure File where
  name : String
  size : Nat
  type : String
deriving DecidableEq, Repr

/-- `const sizeLimit = 50 * 1024 * 1024`. -/
def sizeLimit : Nat := 50 * 1024 * 1024

/-- The array `validTypes` of `onDrop`. -/
def validTypes : List String :=
  ["application/pdf",
   "application/vnd.openxmlformats-officedocument.wordprocessingml.document",
   "application/msword",
   "application/vnd.openxmlformats-officedocument.spreadsheetml.sheet",
   "application/vnd.ms-excel",
   "image/jpeg",
   "image/png"]

/-- The callback of `acceptedFiles.filter` in `onDrop`: `false` for a file
over the size limit or of a type outside `validTypes`. -/
def isValidFile (file : File) : Bool :=
  if file.size > sizeLimit then
    false
  else if !validTypes.contains file.type then
    false
  else
    true

/-- The message `onDrop` passes to `setUploadError` for a rejected file. -/
def rejectionMessage (file : File) : Option String :=
  if file.size > sizeLimit then
    some ("File " ++ file.name ++ " exceeds the 50MB size limit.")
  else if !validTypes.contains file.type then
    some ("File " ++ file.name ++ " has an unsupported format.")
  else
    none

/-- The state of the wizard that its guards and the file handler read or
write: the step, the selected files, the two required metadata fields and
the error message. The remaining metadata fields and the upload progress
take no part in any guard. -/
structure UploadState where
  activeStep : Int
  files : List File
  documentType : String
  documentTitle : String
  uploadError : String
deriving DecidableEq, Repr

/-- The state of the `useState` initialisers. -/
def initialUploadState : UploadState :=
  { activeStep := 0, files := [], documentType := "", documentTitle := "",
    uploadError := "" }

/-- `onDrop`: the valid files among the dropped ones are appended to the
selection; the error shown is the message of the last rejected file. -/
def onDrop (st : UploadState) (acceptedFiles : List File) : UploadState :=
  let validFiles := acceptedFiles.filter isValidFile
  { st with
    files := st.files ++ validFiles,
    uploadError := acceptedFiles.foldl (fun e f => (rejectionMessage f).getD e)
      st.uploadError }

/-- `removeFile`: `files.filter((_, index) => index !== fileIndex)`. -/
def removeFile (st : UploadState) (fileIndex : Nat) : UploadState :=
  { st with files := (st.files.enum.filter (fun p => p.1 != fileIndex)).map (fun p => p.2) }

/-- `handleNext`. -/
def handleNext (st : UploadState) : UploadState :=
  { st with activeStep := st.activeStep + 1 }

/-- `handleBack`. -/
def handleBack (st : UploadState) : UploadState :=
  { st with activeStep := st.activeStep - 1 }

/-- `handleReset`, on the fields of `UploadState`. -/
def handleReset (_st : UploadState) : UploadState :=
  { activeStep := 0, files := [], documentType := "", documentTitle := "",
    uploadError := "" }

/-- `isNextDisabled` (lines 526-534); `!x` of a string holds of the empty
string. -/
def isNextDisabled (st : UploadState) : Bool :=
  if st.activeStep = 0 then
    st.files.length == 0
  else if st.activeStep = 1 then
    st.documentType == "" || st.documentTitle == ""
  else
    false

/-- `steps.length` of `const steps = ['Select Files', 'Document Metadata',
'Review & Upload']`. -/
def stepsLength : Int := 3

/-- What the user can do to the wizard. -/
inductive UploadEvent where
  | drop (acceptedFiles : List File)
  | remove (fileIndex : Nat)
  | setDocumentType (value : String)
  | setDocumentTitle (value : String)
  | next
  | back
  | reset
deriving DecidableEq, Repr

/-- Whether the rendered UI offers the event: the dropzone and the file list
are part of step 0 only, the metadata fields of step 1 only; the Next button
is rendered unless the step is the last one and is disabled by
`isNextDisabled`; the Back button is disabled at step 0. -/
def uploadEnabled (st : UploadState) : UploadEvent → Bool
  | .drop _ => st.activeStep == 0
  | .remove _ => st.activeStep == 0
  | .setDocumentType _ => st.activeStep == 1
  | .setDocumentTitle _ => st.activeStep == 1
  | .next => !(st.activeStep == stepsLength - 1) && !isNextDisabled st
  | .back => !(st.activeStep == 0)
  | .reset => true

/-- The state after an event. -/
def uploadStep (st : UploadState) : UploadEvent → UploadState
  | .drop acceptedFiles => onDrop st acceptedFiles
  | .remove fileIndex => removeFile st fileIndex
  | .setDocumentType value => { st with documentType := value }
  | .setDocumentTitle value => { st with documentTitle := value }
  | .next => handleNext st
  | .back => handleBack st
  | .reset => handleReset st

/-- The states the wizard reaches from its initial state by events the UI
offers. -/
inductive UploadReachable : UploadState → Prop where
  | initial : UploadReachable initialUploadState
  | step {st : UploadState} (e : UploadEvent) :
      UploadReachable st → uploadEnabled st e = true → UploadReachable (uploadStep st e)

/-- The state after a list of events, `none` as soon as one is not offered. -/
def uploadRun (st : UploadState) : List UploadEvent → Option UploadState
  | [] => some st
  | e :: es => if uploadEnabled st e then uploadRun (uploadStep st e) es else none

/-- The invariant of the wizard: the step is 0, 1 or 2; from step 1 on a file
is selected; at step 2 the document type and title are not empty. -/
def uploadInvariant (st : UploadState) : Prop :=
  (st.activeStep = 0 ∨ st.activeStep = 1 ∨ st.activeStep = 2) ∧
  (1 ≤ st.activeStep → st.files ≠ []) ∧
  (st.activeStep = 2 → st.documentType ≠ "" ∧ st.documentTitle ≠ "")

/-! ## The protected route (`App.js`) -/

/-- What `ProtectedRoute` renders: the loading indicator, the component in
the main layout, or a redirect with the requested location in its state. -/
inductive RouteView where
  | loading
  | component
  | redirect (pathname : String) (fromLocation : String)
deriving DecidableEq, Repr

/-- The `render` of `ProtectedRoute` (lines 62-80). -/
def protectedRoute (loading isAuthenticated : Bool) (location : String) : RouteView :=
  if loading then
    .loading
  else if isAuthenticated then
    .component
  else
    .redirect "/login" location

/-! ## Concrete data used to exercise the handlers -/

/-- Sample primitives: the hash is the identity with a tag, and the only
accepted one-time code is `"123456"`. -/
def samplePrimitives : Primitives where
  hash := fun p => "h:" ++ p
  compare := fun p h => ("h:" ++ p) == h
  totpVerify := fun o _ => o.token == "123456"

/-- An account with a second factor, one session and a reset ticket that
expires at time 5000. -/
def alice : User :=
  { _id := 1, name := "Alice", email := "alice@firm.example", password := "h:pw-a",
    role := "staff", department := none, mfaEnabled := true, mfaSecret := some "JBSW",
    tokens := [⟨"sess-1"⟩], resetPasswordToken := some "ticket-a",
    resetPasswordExpires := some 5000, lastLogin := none }

/-- An account without a second factor and without a reset ticket. -/
def bob : User :=
  { _id := 2, name := "Bob", email := "bob@firm.example", password := "h:pw-b",
    role := "admin", department := some "Litigation", mfaEnabled := false,
    mfaSecret := none, tokens := [], resetPasswordToken := none,
    resetPasswordExpires := none, lastLogin := none }

/-- A store with the two sample accounts. -/
def sampleStore : Store := [alice, bob]

/-- A document with an owner and one grantee of each level. -/
def sampleDocument : Document :=
  { owner := "u-alice",
    accessRights := [⟨"u-bob", .read⟩, ⟨"u-carol", .write⟩, ⟨"u-dave", .delete⟩] }

/-- A PDF of exactly the size limit. -/
def sampleFile : File :=
  { name := "brief.pdf", size := 52428800, type := "application/pdf" }

/-- A grant list with one grantee, given as a user document. -/
def sampleAccessRights : List Access :=
  [{ user := .document "u-bob", permission := "delete" }]

/-- The one-time code of a time step in the sample windowed primitive. -/
def stepCode : Nat → String
  | 0 => "000000"
  | 1 => "111111"
  | 2 => "222222"
  | 3 => "333333"
  | _ => "999999"

/-- Sample primitives whose one-time-code check honours the step window the
way the library documents it: with 30-second steps, a token is accepted when
it is the code of a step at most `speakeasyWindow` away from the current one. -/
def stepPrimitives : Primitives where
  hash := fun p => "h:" ++ p
  compare := fun p h => ("h:" ++ p) == h
  totpVerify := fun o now =>
    let w := speakeasyWindow o
    let c := now / 30000
    (List.range (2 * w + 1)).any (fun d => decide (w ≤ c + d) && stepCode (c + d - w) == o.token)


/-! ## Lemmas on the store -/

theorem findOne_mem {p : User → Bool} {s : Store} {u : User}
    (h : findOne p s = some u) : u ∈ s :=
  List.mem_of_find?_eq_some h

theorem findOne_holds {p : User → Bool} {s : Store} {u : User}
    (h : findOne p s = some u) : p u = true :=
  List.find?_some h

theorem any_id_of_mem {s : Store} {u : User} (h : u ∈ s) :
    s.any (fun v => v._id == u._id) = true := by
  rw [List.any_eq_true]
  exact ⟨u, h, by simp⟩

theorem save_of_mem {s : Store} {u : User} (w : User) (h : u ∈ s) (hid : w._id = u._id) :
    save w s = s.map (fun v => if v._id = w._id then w else v) := by
  unfold save
  rw [if_pos]
  rw [hid]
  exact any_id_of_mem h

theorem getById_save (u : User) (s : Store) : getById u._id (save u s) = some u := by
  unfold getById save
  split
  · rename_i h
    induction s with
    | nil => simp at h
    | cons a t ih =>
      by_cases ha : a._id = u._id
      · simp [List.find?, ha]
      · have ht : t.any (fun v => v._id == u._id) = true := by
          simpa [List.any_cons, ha] using h
        have hb : (a._id == u._id) = false := by simpa using ha
        simp [List.find?, ha, hb, ih ht]
  · rename_i h
    have hn : ∀ v ∈ s, ¬ (v._id = u._id) := by
      intro v hv hid
      apply h
      rw [List.any_eq_true]
      exact ⟨v, hv, by simp [hid]⟩
    rw [List.find?_append]
    have : List.find? (fun v => v._id == u._id) s = none := by
      rw [List.find?_eq_none]
      intro v hv
      simpa using hn v hv
    simp [this]

theorem save_length_of_mem {s : Store} {u : User} (w : User) (h : u ∈ s)
    (hid : w._id = u._id) : (save w s).length = s.length := by
  rw [save_of_mem w h hid, List.length_map]

theorem save_frame (w : User) (s : Store) (i : Nat) (v : User)
    (hv : s[i]? = some v) (hne : v._id ≠ w._id) : (save w s)[i]? = some v := by
  unfold save
  split
  · rw [List.getElem?_map, hv]
    simp [hne]
  · have hi : i < s.length := by
      by_contra hlt
      rw [List.getElem?_eq_none (by omega)] at hv
      cases hv
    rw [List.getElem?_append_left hi]
    exact hv


/-! ## Lemmas on the credential check -/

theorem findByCredentials_ok {P : Primitives} {s : Store} {email password : String}
    {u : User} (hfind : findOne (byEmail email) s = some u)
    (hpw : P.compare password u.password = true) :
    findByCredentials P s email password = .ok u := by
  simp [findByCredentials, hfind, hpw]

theorem findByCredentials_error {P : Primitives} {s : Store} {email password : String}
    (hcred : findOne (byEmail email) s = none ∨
      ∃ u, findOne (byEmail email) s = some u ∧ P.compare password u.password = false) :
    findByCredentials P s email password = .error "Unable to login" := by
  rcases hcred with h | ⟨u, h, hpw⟩
  · simp [findByCredentials, h]
  · simp [findByCredentials, h, hpw]

theorem login_of_gate_none {P : Primitives} {now : Nat} {fresh email password : String}
    {mfaToken : Option String} {s : Store} {u : User}
    (hfind : findOne (byEmail email) s = some u)
    (hpw : P.compare password u.password = true)
    (hgate : mfaGate P now u mfaToken = none) :
    login P now fresh ⟨email, password, mfaToken⟩ s =
      (⟨200, .userToken { u with tokens := u.tokens ++ [⟨fresh⟩], lastLogin := some now } fresh⟩,
       save { u with tokens := u.tokens ++ [⟨fresh⟩], lastLogin := some now }
         (save { u with tokens := u.tokens ++ [⟨fresh⟩] } s)) := by
  simp [login, loginBody, findByCredentials_ok hfind hpw, hgate, generateAuthToken,
    bind, Except.bind, pure, Except.pure]

theorem login_of_gate_some {P : Primitives} {now : Nat} {fresh email password : String}
    {mfaToken : Option String} {s : Store} {u : User} {r : Response}
    (hfind : findOne (byEmail email) s = some u)
    (hpw : P.compare password u.password = true)
    (hgate : mfaGate P now u mfaToken = some r) :
    login P now fresh ⟨email, password, mfaToken⟩ s = (r, s) := by
  simp [login, loginBody, findByCredentials_ok hfind hpw, hgate,
    bind, Except.bind, pure, Except.pure]


/-! ## Login: the claims -/

/-- C2: when the credential check fails (the email matches no account, or the
password does not verify against the matched account), login answers
`401 { error: 'Unable to login' }` in both cases alike and leaves the store
unchanged (so no token is issued), whatever one-time code is supplied and
whatever the one-time-code primitive would answer: the code is not evaluated. -/
theorem login_invalid_credentials (P : Primitives) (now : Nat)
    (fresh email password : String) (s : Store)
    (hcred : findOne (byEmail email) s = none ∨
      ∃ u, findOne (byEmail email) s = some u ∧ P.compare password u.password = false)
    (totp : TotpOptions → Nat → Bool) (mfaToken : Option String) :
    login { P with totpVerify := totp } now fresh ⟨email, password, mfaToken⟩ s =
      (⟨401, .error "Unable to login"⟩, s) := by
  have herr : findByCredentials { P with totpVerify := totp } s email password =
      .error "Unable to login" := findByCredentials_error hcred
  simp [login, loginBody, herr, bind, Except.bind]

/-- Witness of C2: an unknown email and a wrong password get the same answer. -/
theorem login_invalid_credentials_witness :
    findOne (byEmail "nobody@firm.example") sampleStore = none ∧
    login samplePrimitives 1000 "tok-9" ⟨"nobody@firm.example", "pw-a", some "123456"⟩
      sampleStore = (⟨401, .error "Unable to login"⟩, sampleStore) ∧
    login samplePrimitives 1000 "tok-9" ⟨"alice@firm.example", "wrong", some "123456"⟩
      sampleStore = (⟨401, .error "Unable to login"⟩, sampleStore) :=
  ⟨by decide,
   login_invalid_credentials samplePrimitives 1000 "tok-9" "nobody@firm.example" "pw-a"
     sampleStore (Or.inl (by decide)) samplePrimitives.totpVerify (some "123456"),
   login_invalid_credentials samplePrimitives 1000 "tok-9" "alice@firm.example" "wrong"
     sampleStore (Or.inr ⟨alice, by decide, by decide⟩) samplePrimitives.totpVerify
     (some "123456")⟩

/-- C3: for an account with `mfaEnabled = true`, a login with correct
credentials and no one-time code (the field is absent, or empty, which the
handler treats alike) answers `200 { requireMfa: true, ... }`, a body without
token, and leaves the store unchanged: no token is issued and neither the
session set nor `lastLogin` of the account is modified. -/
theorem login_mfa_required (P : Primitives) (now : Nat) (fresh email password : String)
    (mfaToken : Option String) (s : Store) (u : User)
    (hfind : findOne (byEmail email) s = some u)
    (hpw : P.compare password u.password = true)
    (hmfa : u.mfaEnabled = true)
    (hotp : notProvided mfaToken = true) :
    login P now fresh ⟨email, password, mfaToken⟩ s =
      (⟨200, .requireMfa "MFA token required"⟩, s) := by
  apply login_of_gate_some hfind hpw
  simp [mfaGate, hmfa, hotp]

/-- Witness of C3: the sample account with a second factor, no code sent. -/
theorem login_mfa_required_witness :
    login samplePrimitives 1000 "tok-9" ⟨"alice@firm.example", "pw-a", none⟩ sampleStore =
      (⟨200, .requireMfa "MFA token required"⟩, sampleStore) :=
  login_mfa_required samplePrimitives 1000 "tok-9" "alice@firm.example" "pw-a" none
    sampleStore alice (by decide) (by decide) (by decide) (by decide)

/-- C4: for an account with `mfaEnabled = true`, a login with correct
credentials and a one-time code that the primitive does not verify against
`mfaSecret` answers `401 { error: 'Invalid MFA token' }` and leaves the store
unchanged: no token is issued and the account's data is untouched. -/
theorem login_invalid_mfa_code (P : Primitives) (now : Nat)
    (fresh email password code : String) (s : Store) (u : User)
    (hfind : findOne (byEmail email) s = some u)
    (hpw : P.compare password u.password = true)
    (hmfa : u.mfaEnabled = true)
    (hcode : code ≠ "")
    (hver : P.totpVerify ⟨u.mfaSecret, "base32", code, none⟩ now = false) :
    login P now fresh ⟨email, password, some code⟩ s =
      (⟨401, .error "Invalid MFA token"⟩, s) := by
  apply login_of_gate_some hfind hpw
  simp [mfaGate, hmfa, notProvided, hcode, mfaVerifyOptions, hver]

/-- Witness of C4: the sample account with a wrong code. -/
theorem login_invalid_mfa_code_witness :
    login samplePrimitives 1000 "tok-9" ⟨"alice@firm.example", "pw-a", some "000000"⟩
      sampleStore = (⟨401, .error "Invalid MFA token"⟩, sampleStore) :=
  login_invalid_mfa_code samplePrimitives 1000 "tok-9" "alice@firm.example" "pw-a" "000000"
    sampleStore alice (by decide) (by decide) (by decide) (by decide) (by decide)

/-- C5: for an account with `mfaEnabled = true`, a login with correct
credentials and a one-time code that the primitive verifies against
`mfaSecret` issues a session token: the answer is `200 { user, token }` with
the fresh token and the account, and the account stored afterwards is the
one returned, with the token appended to its session set. -/
theorem login_mfa_success (P : Primitives) (now : Nat)
    (fresh email password code : String) (s : Store) (u : User)
    (hfind : findOne (byEmail email) s = some u)
    (hpw : P.compare password u.password = true)
    (hmfa : u.mfaEnabled = true)
    (hver : P.totpVerify ⟨u.mfaSecret, "base32", code, none⟩ now = true)
    (hcode : code ≠ "") :
    (login P now fresh ⟨email, password, some code⟩ s).1 =
      ⟨200, .userToken { u with tokens := u.tokens ++ [⟨fresh⟩], lastLogin := some now }
        fresh⟩ ∧
    getById u._id (login P now fresh ⟨email, password, some code⟩ s).2 =
      some { u with tokens := u.tokens ++ [⟨fresh⟩], lastLogin := some now } := by
  have hgate : mfaGate P now u (some code) = none := by
    simp [mfaGate, hmfa, notProvided, hcode, mfaVerifyOptions, hver]
  rw [login_of_gate_none hfind hpw hgate]
  refine ⟨rfl, ?_⟩
  exact getById_save { u with tokens := u.tokens ++ [⟨fresh⟩], lastLogin := some now } _


/-- Witness of C5: the sample account with the accepted code. -/
theorem login_mfa_success_witness :
    (login samplePrimitives 1000 "tok-9" ⟨"alice@firm.example", "pw-a", some "123456"⟩
      sampleStore).1 =
      ⟨200, .userToken { alice with tokens := alice.tokens ++ [⟨"tok-9"⟩],
                                    lastLogin := some 1000 } "tok-9"⟩ ∧
    getById alice._id (login samplePrimitives 1000 "tok-9"
      ⟨"alice@firm.example", "pw-a", some "123456"⟩ sampleStore).2 =
      some { alice with tokens := alice.tokens ++ [⟨"tok-9"⟩], lastLogin := some 1000 } :=
  login_mfa_success samplePrimitives 1000 "tok-9" "alice@firm.example" "pw-a" "123456"
    sampleStore alice (by decide) (by decide) (by decide) (by decide) (by decide)

/-- C6: for an account with `mfaEnabled = false`, a login with correct
credentials answers `200 { user, token }` with the fresh token on the first
call, whatever the request carries as one-time code (nothing, the empty
string or a code), so its body is not the `requireMfa` one; the account
stored afterwards holds the token. -/
theorem login_without_mfa (P : Primitives) (now : Nat) (fresh email password : String)
    (mfaToken : Option String) (s : Store) (u : User)
    (hfind : findOne (byEmail email) s = some u)
    (hpw : P.compare password u.password = true)
    (hmfa : u.mfaEnabled = false) :
    (login P now fresh ⟨email, password, mfaToken⟩ s).1 =
      ⟨200, .userToken { u with tokens := u.tokens ++ [⟨fresh⟩], lastLogin := some now }
        fresh⟩ ∧
    (login P now fresh ⟨email, password, mfaToken⟩ s).1.body ≠
      .requireMfa "MFA token required" ∧
    getById u._id (login P now fresh ⟨email, password, mfaToken⟩ s).2 =
      some { u with tokens := u.tokens ++ [⟨fresh⟩], lastLogin := some now } := by
  have hgate : mfaGate P now u mfaToken = none := by
    simp [mfaGate, hmfa]
  rw [login_of_gate_none hfind hpw hgate]
  refine ⟨rfl, ?_, ?_⟩
  · intro h
    cases h
  · exact getById_save { u with tokens := u.tokens ++ [⟨fresh⟩], lastLogin := some now } _

/-- Witness of C6: the sample account without second factor, no code sent. -/
theorem login_without_mfa_witness :
    (login samplePrimitives 1000 "tok-9" ⟨"bob@firm.example", "pw-b", none⟩ sampleStore).1 =
      ⟨200, .userToken { bob with tokens := bob.tokens ++ [⟨"tok-9"⟩],
                                  lastLogin := some 1000 } "tok-9"⟩ ∧
    (login samplePrimitives 1000 "tok-9" ⟨"bob@firm.example", "pw-b", none⟩
      sampleStore).1.body ≠ .requireMfa "MFA token required" ∧
    getById bob._id (login samplePrimitives 1000 "tok-9"
      ⟨"bob@firm.example", "pw-b", none⟩ sampleStore).2 =
      some { bob with tokens := bob.tokens ++ [⟨"tok-9"⟩], lastLogin := some 1000 } :=
  login_without_mfa samplePrimitives 1000 "tok-9" "bob@firm.example" "pw-b" none
    sampleStore bob (by decide) (by decide) (by decide)

/-- C7, refuted as stated: login passes no step window to the one-time-code
primitive, so the window in force is the default 0, not at least 1. With a
primitive that honours its window, at time 60000 (step 2) the code of the
preceding step 1 is rejected by login, although the same primitive accepts it
as soon as a window of 1 is passed. -/
theorem login_totp_window_counterexample :
    (mfaVerifyOptions alice (some "111111")).window = none ∧
    ¬ (1 ≤ speakeasyWindow (mfaVerifyOptions alice (some "111111"))) ∧
    login stepPrimitives 60000 "tok-9" ⟨"alice@firm.example", "pw-a", some "111111"⟩
      sampleStore = (⟨401, .error "Invalid MFA token"⟩, sampleStore) ∧
    stepPrimitives.totpVerify
      { mfaVerifyOptions alice (some "111111") with window := some 1 } 60000 = true := by
  decide

/-- C7, amended: the second-factor check of login passes no step window to
the one-time-code primitive. The options it builds carry the secret, the
encoding `base32` and the token only, so the window in force is the
primitive's default, 0; and login's result does not depend on what the
primitive answers for options that carry a window. -/
theorem login_passes_no_window (P Q : Primitives) (now : Nat) (fresh : String)
    (req : LoginRequest) (s : Store) (user : User)
    (hcompare : Q.compare = P.compare)
    (htotp : ∀ o t, o.window = none → Q.totpVerify o t = P.totpVerify o t) :
    mfaVerifyOptions user req.mfaToken =
      ⟨user.mfaSecret, "base32", req.mfaToken.getD "", none⟩ ∧
    speakeasyWindow (mfaVerifyOptions user req.mfaToken) = 0 ∧
    login Q now fresh req s = login P now fresh req s := by
  refine ⟨rfl, rfl, ?_⟩
  have hgate : ∀ user, mfaGate Q now user req.mfaToken = mfaGate P now user req.mfaToken := by
    intro user
    simp [mfaGate, htotp (mfaVerifyOptions user req.mfaToken) now rfl]
  have hcred : findByCredentials Q s req.email req.password =
      findByCredentials P s req.email req.password := by
    simp [findByCredentials, hcompare]
  unfold login loginBody
  rw [hcred]
  cases findByCredentials P s req.email req.password with
  | error e => rfl
  | ok user => simp [bind, Except.bind, hgate user]

/-- Witness of C7 (amended): a primitive that would accept everything as soon
as a window is passed behaves in login like the sample primitive. -/
theorem login_passes_no_window_witness :
    mfaVerifyOptions alice (some "000000") = ⟨some "JBSW", "base32", "000000", none⟩ ∧
    speakeasyWindow (mfaVerifyOptions alice (some "000000")) = 0 ∧
    login { samplePrimitives with
            totpVerify := fun o t => o.window.isSome || samplePrimitives.totpVerify o t }
        1000 "tok-9" ⟨"alice@firm.example", "pw-a", some "000000"⟩ sampleStore =
      login samplePrimitives 1000 "tok-9" ⟨"alice@firm.example", "pw-a", some "000000"⟩
        sampleStore :=
  login_passes_no_window samplePrimitives
    { samplePrimitives with
      totpVerify := fun o t => o.window.isSome || samplePrimitives.totpVerify o t }
    1000 "tok-9" ⟨"alice@firm.example", "pw-a", some "000000"⟩ sampleStore alice rfl
    (by intro o t h; simp [h])

/-! ## Password reset: the claims -/

/-- C8: the reset request answers `200` with the generic message for every
email, store, time and ticket value: two requests, one whose email matches an
account and one whose email matches none, get responses with the same status
and the same body. -/
theorem passwordResetRequest_same_response (now now2 : Nat) (fresh fresh2 : String)
    (email email2 : String) (s s2 : Store) :
    (passwordResetRequest now fresh email s).1 = ⟨200, .message resetRequestMessage⟩ ∧
    (passwordResetRequest now fresh email s).1 =
      (passwordResetRequest now2 fresh2 email2 s2).1 := by
  have key : ∀ (n : Nat) (f e : String) (t : Store),
      (passwordResetRequest n f e t).1 = ⟨200, .message resetRequestMessage⟩ := by
    intro n f e t
    unfold passwordResetRequest passwordResetRequestBody
    cases findOne (byEmail e) t <;> rfl
  exact ⟨key now fresh email s, by rw [key, key]⟩

/-- C9: when no account holds a reset ticket equal to the supplied value with
an expiry strictly later than now, the password reset answers
`400 { error: 'Password reset token is invalid or has expired' }` and the
store is unchanged: no password, ticket, expiry or session set is modified. -/
theorem passwordReset_invalid_ticket (P : Primitives) (now : Nat)
    (token password : String) (s : Store)
    (hnone : ∀ u ∈ s, ¬ (u.resetPasswordToken = some token ∧
      ∃ e, u.resetPasswordExpires = some e ∧ now < e)) :
    passwordReset P now token password s =
      (⟨400, .error "Password reset token is invalid or has expired"⟩, s) := by
  have hfind : findOne (holdsTicket token now) s = none := by
    unfold findOne
    rw [List.find?_eq_none]
    intro u hu hheld
    apply hnone u hu
    unfold holdsTicket at hheld
    cases he : u.resetPasswordExpires with
    | none => simp [he] at hheld
    | some e =>
      simp [he] at hheld
      exact ⟨hheld.1, e, rfl, hheld.2⟩
  simp [passwordReset, passwordResetBody, hfind, pure, Except.pure]

/-- Witness of C9: at time 5000 the ticket of the sample account, which
expires at 5000, is no longer valid; an unknown ticket is not valid either. -/
theorem passwordReset_invalid_ticket_witness :
    passwordReset samplePrimitives 5000 "ticket-a" "new-pw" sampleStore =
      (⟨400, .error "Password reset token is invalid or has expired"⟩, sampleStore) :=
  passwordReset_invalid_ticket samplePrimitives 5000 "ticket-a" "new-pw" sampleStore
    (by simp [sampleStore, alice, bob])

/-- The password reset on a store where the ticket lookup resolves to `u`. -/
theorem passwordReset_of_found {P : Primitives} {now : Nat} {token password : String}
    {s : Store} {u : User} (hfind : findOne (holdsTicket token now) s = some u) :
    passwordReset P now token password s =
      (⟨200, .message "Password has been updated"⟩,
       save { u with password := P.hash password, resetPasswordToken := none,
                     resetPasswordExpires := none } s) := by
  simp [passwordReset, passwordResetBody, hfind, assignPassword, pure, Except.pure]

/-- An account that is the only one to hold a valid ticket is the one the
ticket lookup resolves to. -/
theorem findOne_holdsTicket_of_unique {token : String} {now : Nat} {s : Store} {u : User}
    (hu : u ∈ s) (hheld : holdsTicket token now u = true)
    (huniq : ∀ v ∈ s, holdsTicket token now v = true → v = u) :
    findOne (holdsTicket token now) s = some u := by
  unfold findOne
  cases hf : List.find? (holdsTicket token now) s with
  | none =>
    rw [List.find?_eq_none] at hf
    exact absurd hheld (hf u hu)
  | some v =>
    rw [huniq v (List.mem_of_find?_eq_some hf) (List.find?_some hf)]

/-- C10: for the account holding a non-expired ticket equal to the supplied
value (the account the exact-match lookup resolves to), the password reset
answers `200 { message: 'Password has been updated' }`; afterwards that
account carries the hash of the new password and has neither a ticket value
nor a ticket expiry, its other fields being as before; the store has the
same number of accounts and every account with another `_id` is unchanged at
its position. -/
theorem passwordReset_success (P : Primitives) (now : Nat) (token password : String)
    (s : Store) (u : User)
    (hfind : findOne (holdsTicket token now) s = some u) :
    (passwordReset P now token password s).1 = ⟨200, .message "Password has been updated"⟩ ∧
    getById u._id (passwordReset P now token password s).2 =
      some { u with password := P.hash password, resetPasswordToken := none,
                    resetPasswordExpires := none } ∧
    (passwordReset P now token password s).2.length = s.length ∧
    ∀ (i : Nat) (v : User), s[i]? = some v → v._id ≠ u._id →
      (passwordReset P now token password s).2[i]? = some v := by
  rw [passwordReset_of_found hfind]
  refine ⟨rfl, ?_, ?_, ?_⟩
  · exact getById_save { u with password := P.hash password, resetPasswordToken := none,
                                resetPasswordExpires := none } s
  · exact save_length_of_mem _ (findOne_mem hfind) rfl
  · intro i v hv hne
    exact save_frame _ s i v hv hne

/-- Witness of C10: the sample account redeems its ticket at time 1000; the
other sample account is untouched. -/
theorem passwordReset_success_witness :
    findOne (holdsTicket "ticket-a" 1000) sampleStore = some alice ∧
    (passwordReset samplePrimitives 1000 "ticket-a" "new-pw" sampleStore).1 =
      ⟨200, .message "Password has been updated"⟩ ∧
    getById alice._id (passwordReset samplePrimitives 1000 "ticket-a" "new-pw" sampleStore).2 =
      some { alice with password := samplePrimitives.hash "new-pw",
                        resetPasswordToken := none, resetPasswordExpires := none } ∧
    (passwordReset samplePrimitives 1000 "ticket-a" "new-pw" sampleStore).2.length =
      sampleStore.length ∧
    (passwordReset samplePrimitives 1000 "ticket-a" "new-pw" sampleStore).2[1]? = some bob :=
  have h := passwordReset_success samplePrimitives 1000 "ticket-a" "new-pw" sampleStore alice
    (by decide)
  ⟨by decide, h.1, h.2.1, h.2.2.1, h.2.2.2 1 bob (by decide) (by decide)⟩

/-- C1, refuted as stated: the sample account holds a ticket valid at time
1000 and one active session; the password reset with that ticket succeeds,
and afterwards the session token `sess-1` is still in the account's tokens:
the session set is not empty. -/
theorem passwordReset_sessions_counterexample :
    holdsTicket "ticket-a" 1000 alice = true ∧
    alice.tokens = [⟨"sess-1"⟩] ∧
    (passwordReset samplePrimitives 1000 "ticket-a" "new-pw" sampleStore).1 =
      ⟨200, .message "Password has been updated"⟩ ∧
    (getById alice._id
      (passwordReset samplePrimitives 1000 "ticket-a" "new-pw" sampleStore).2).map
        (fun a => a.tokens) = some [⟨"sess-1"⟩] ∧
    ¬ ((getById alice._id
      (passwordReset samplePrimitives 1000 "ticket-a" "new-pw" sampleStore).2).map
        (fun a => a.tokens) = some []) := by
  decide

/-- C1, amended: a successful password reset leaves the session set of the
account exactly as it was: with the ticket lookup resolving to `u`, the
answer is the success response and the account stored afterwards under the
`_id` of `u` has the tokens `u` had, so a token issued before the reset is
still in the account's tokens. -/
theorem passwordReset_sessions_unchanged (P : Primitives) (now : Nat)
    (token password : String) (s : Store) (u : User)
    (hfind : findOne (holdsTicket token now) s = some u) :
    (passwordReset P now token password s).1 = ⟨200, .message "Password has been updated"⟩ ∧
    (getById u._id (passwordReset P now token password s).2).map (fun a => a.tokens) =
      some u.tokens ∧
    ∀ t ∈ u.tokens, (getById u._id (passwordReset P now token password s).2).any
      (fun a => decide (t ∈ a.tokens)) = true := by
  have hget : getById u._id (save { u with password := P.hash password,
                                           resetPasswordToken := none,
                                           resetPasswordExpires := none } s) =
      some { u with password := P.hash password,
                    resetPasswordToken := none,
                    resetPasswordExpires := none } :=
    getById_save { u with password := P.hash password,
                          resetPasswordToken := none,
                          resetPasswordExpires := none } s
  rw [passwordReset_of_found hfind]
  refine ⟨rfl, ?_, ?_⟩
  · show Option.map (fun a => a.tokens) (getById u._id (save _ s)) = some u.tokens
    rw [hget]
    rfl
  · intro t ht
    show Option.any (fun a => decide (t ∈ a.tokens)) (getById u._id (save _ s)) = true
    rw [hget]
    simpa using ht

/-- Witness of C1 (amended): the session of the sample account survives the
reset. -/
theorem passwordReset_sessions_unchanged_witness :
    findOne (holdsTicket "ticket-a" 1000) sampleStore = some alice ∧
    (passwordReset samplePrimitives 1000 "ticket-a" "new-pw" sampleStore).1 =
      ⟨200, .message "Password has been updated"⟩ ∧
    (getById alice._id
      (passwordReset samplePrimitives 1000 "ticket-a" "new-pw" sampleStore).2).map
        (fun a => a.tokens) = some alice.tokens ∧
    (getById alice._id
      (passwordReset samplePrimitives 1000 "ticket-a" "new-pw" sampleStore).2).any
        (fun a => decide ((⟨"sess-1"⟩ : TokenEntry) ∈ a.tokens)) = true :=
  have h := passwordReset_sessions_unchanged samplePrimitives 1000 "ticket-a" "new-pw"
    sampleStore alice (by decide)
  ⟨by decide, h.1, h.2.1, h.2.2 ⟨"sess-1"⟩ (by decide)⟩

/-! ## Password reset: tickets -/

theorem holdsTicket_iff (token : String) (now : Nat) (u : User) :
    holdsTicket token now u = true ↔
      u.resetPasswordToken = some token ∧ ∃ e, u.resetPasswordExpires = some e ∧ now < e := by
  unfold holdsTicket
  cases he : u.resetPasswordExpires with
  | none => simp
  | some e => simp

theorem holdsTicket_mono {token : String} {now now2 : Nat} {u : User} (hle : now ≤ now2)
    (h : holdsTicket token now2 u = true) : holdsTicket token now u = true := by
  rw [holdsTicket_iff] at h ⊢
  obtain ⟨ht, e, he, hlt⟩ := h
  exact ⟨ht, e, he, by omega⟩

theorem getById_save_of_id {i : Nat} {w : User} (s : Store) (h : w._id = i) :
    getById i (save w s) = some w := by
  rw [← h]
  exact getById_save w s

theorem passwordReset_of_not_found {P : Primitives} {now : Nat} {token password : String}
    {s : Store} (hfind : findOne (holdsTicket token now) s = none) :
    passwordReset P now token password s =
      (⟨400, .error "Password reset token is invalid or has expired"⟩, s) := by
  simp [passwordReset, passwordResetBody, hfind, pure, Except.pure]

/-- C11: in a store where exactly one account holds the non-expired ticket,
the first password reset with it succeeds and stores the hash of its new
password; a second reset with the same ticket, at the same or a later time,
answers `400 { error: 'Password reset token is invalid or has expired' }`
and leaves the store as the first reset left it, so the account keeps the
password set by the first. -/
theorem passwordReset_twice (P : Primitives) (now now2 : Nat)
    (token password password2 : String) (s : Store) (u : User)
    (hu : u ∈ s) (hheld : holdsTicket token now u = true)
    (huniq : ∀ v ∈ s, holdsTicket token now v = true → v = u)
    (hlater : now ≤ now2) :
    (passwordReset P now token password s).1 = ⟨200, .message "Password has been updated"⟩ ∧
    getById u._id (passwordReset P now token password s).2 =
      some { u with password := P.hash password, resetPasswordToken := none,
                    resetPasswordExpires := none } ∧
    passwordReset P now2 token password2 (passwordReset P now token password s).2 =
      (⟨400, .error "Password reset token is invalid or has expired"⟩,
       (passwordReset P now token password s).2) := by
  have hfind := findOne_holdsTicket_of_unique hu hheld huniq
  rw [passwordReset_of_found hfind]
  refine ⟨rfl, getById_save_of_id s rfl, ?_⟩
  apply passwordReset_of_not_found
  unfold findOne
  rw [List.find?_eq_none]
  show ∀ w ∈ save _ s, ¬ holdsTicket token now2 w = true
  have hmap := save_of_mem { u with password := P.hash password,
                                    resetPasswordToken := none,
                                    resetPasswordExpires := none } hu rfl
  rw [hmap]
  intro w hw
  rw [List.mem_map] at hw
  obtain ⟨v, hv, rfl⟩ := hw
  by_cases hid : v._id = u._id
  · simp [hid, holdsTicket]
  · simp only [hid, if_false]
    intro hh
    have := huniq v hv (holdsTicket_mono hlater hh)
    exact hid (by rw [this])

/-- Witness of C11: the sample account redeems its ticket at time 1000 and
tries again at time 2000. -/
theorem passwordReset_twice_witness :
    (passwordReset samplePrimitives 1000 "ticket-a" "new-pw" sampleStore).1 =
      ⟨200, .message "Password has been updated"⟩ ∧
    getById alice._id (passwordReset samplePrimitives 1000 "ticket-a" "new-pw" sampleStore).2 =
      some { alice with password := samplePrimitives.hash "new-pw",
                        resetPasswordToken := none, resetPasswordExpires := none } ∧
    passwordReset samplePrimitives 2000 "ticket-a" "other-pw"
        (passwordReset samplePrimitives 1000 "ticket-a" "new-pw" sampleStore).2 =
      (⟨400, .error "Password reset token is invalid or has expired"⟩,
       (passwordReset samplePrimitives 1000 "ticket-a" "new-pw" sampleStore).2) :=
  passwordReset_twice samplePrimitives 1000 2000 "ticket-a" "new-pw" "other-pw" sampleStore
    alice (by decide) (by decide) (by decide) (by decide)

/-- The reset request on a store where the email lookup resolves to `u`. -/
theorem passwordResetRequest_of_found {now : Nat} {fresh email : String} {s : Store}
    {u : User} (hfind : findOne (byEmail email) s = some u) :
    passwordResetRequest now fresh email s =
      (⟨200, .message resetRequestMessage⟩,
       save { u with resetPasswordToken := some fresh,
                     resetPasswordExpires := some (now + 3600000) } s) := by
  simp [passwordResetRequest, passwordResetRequestBody, hfind, pure, Except.pure]

/-- C12: for the account matched by a reset request at time `now`, the
account stored afterwards holds the freshly generated ticket value with the
expiry `now + 3600000` in place of whatever ticket it held, all its other
fields (the password and the session set among them) being as before; the
store keeps its size and every account with another `_id` is unchanged. -/
theorem passwordResetRequest_issues_ticket (now : Nat) (fresh email : String) (s : Store)
    (u : User) (hfind : findOne (byEmail email) s = some u) :
    getById u._id (passwordResetRequest now fresh email s).2 =
      some { u with resetPasswordToken := some fresh,
                    resetPasswordExpires := some (now + 3600000) } ∧
    (getById u._id (passwordResetRequest now fresh email s).2).map
      (fun a => (a.password, a.tokens)) = some (u.password, u.tokens) ∧
    (passwordResetRequest now fresh email s).2.length = s.length ∧
    ∀ (i : Nat) (v : User), s[i]? = some v → v._id ≠ u._id →
      (passwordResetRequest now fresh email s).2[i]? = some v := by
  have hget : getById u._id (save { u with resetPasswordToken := some fresh,
                                           resetPasswordExpires := some (now + 3600000) } s) =
      some { u with resetPasswordToken := some fresh,
                    resetPasswordExpires := some (now + 3600000) } :=
    getById_save { u with resetPasswordToken := some fresh,
                          resetPasswordExpires := some (now + 3600000) } s
  rw [passwordResetRequest_of_found hfind]
  refine ⟨hget, ?_, ?_, ?_⟩
  · show Option.map _ (getById u._id (save _ s)) = _
    rw [hget]
    rfl
  · exact save_length_of_mem _ (findOne_mem hfind) rfl
  · intro i v hv hne
    exact save_frame _ s i v hv hne

/-- Witness of C12: the sample account, which holds `ticket-a`, asks for a
reset at time 2000 and holds `ticket-b`, expiring at 3602000, afterwards. -/
theorem passwordResetRequest_issues_ticket_witness :
    getById alice._id (passwordResetRequest 2000 "ticket-b" "alice@firm.example" sampleStore).2 =
      some { alice with resetPasswordToken := some "ticket-b",
                        resetPasswordExpires := some 3602000 } ∧
    (passwordResetRequest 2000 "ticket-b" "alice@firm.example" sampleStore).2[1]? = some bob :=
  have h := passwordResetRequest_issues_ticket 2000 "ticket-b" "alice@firm.example"
    sampleStore alice (by decide)
  ⟨h.1, h.2.2.2 1 bob (by decide) (by decide)⟩

/-! ## Logout -/

theorem revoke_revoke (S : List TokenEntry) (t : String) :
    revoke (revoke S t) t = revoke S t := by
  unfold revoke
  rw [List.filter_filter]
  simp

theorem revoke_of_absent {S : List TokenEntry} {t : String}
    (h : ∀ e ∈ S, e.token ≠ t) : revoke S t = S := by
  unfold revoke
  rw [List.filter_eq_self]
  intro e he
  simpa using h e he

theorem logout_eq (user : User) (token : String) (s : Store) :
    logout user token s =
      (⟨200, .message "Logged out successfully"⟩,
       save { user with tokens := revoke user.tokens token } s) := rfl

theorem logoutAll_eq (user : User) (s : Store) :
    logoutAll user s =
      (⟨200, .message "Logged out of all sessions"⟩, save { user with tokens := [] } s) := rfl

/-- C14: logout of the account `user` with the presented token `token`
stores the account with the session set filtered: no entry of the new set
has the token `token`, every entry of the old set with another token is in
the new set, and the new set is the old one with entries left out, the
others keeping their relative order. -/
theorem logout_removes_token (user : User) (token : String) (s : Store) :
    getById user._id (logout user token s).2 =
      some { user with tokens := revoke user.tokens token } ∧
    (∀ e ∈ revoke user.tokens token, e.token ≠ token) ∧
    (∀ e ∈ user.tokens, e.token ≠ token → e ∈ revoke user.tokens token) ∧
    (revoke user.tokens token).Sublist user.tokens ∧
    revoke user.tokens token = user.tokens.filter (fun e => decide (e.token ≠ token)) := by
  rw [logout_eq]
  refine ⟨getById_save_of_id s rfl, ?_, ?_, ?_, ?_⟩
  · intro e he
    simpa [revoke] using (List.mem_filter.mp he).2
  · intro e he hne
    exact List.mem_filter.mpr ⟨he, by simpa using hne⟩
  · exact List.filter_sublist _
  · unfold revoke
    congr 1
    funext e
    by_cases h : e.token = token <;> simp [h]

/-- C15: revocation is idempotent: removing a token from a session set twice
gives the set obtained by removing it once, and removing a token that no
entry carries leaves the set as it is; the logout handler answers `200` in
every case, and for an account without the token stores the account
unchanged. -/
theorem revoke_idempotent (S : List TokenEntry) (t : String) (user : User) (s : Store) :
    revoke (revoke S t) t = revoke S t ∧
    ((∀ e ∈ S, e.token ≠ t) → revoke S t = S) ∧
    (logout user t s).1 = ⟨200, .message "Logged out successfully"⟩ ∧
    ((∀ e ∈ user.tokens, e.token ≠ t) →
      getById user._id (logout user t s).2 = some user) ∧
    getById user._id
      (logout { user with tokens := revoke user.tokens t } t (logout user t s).2).2 =
      getById user._id (logout user t s).2 := by
  refine ⟨revoke_revoke S t, revoke_of_absent, rfl, ?_, ?_⟩
  · intro h
    rw [logout_eq, revoke_of_absent h]
    exact getById_save_of_id s rfl
  · rw [logout_eq, logout_eq]
    simp only [revoke_revoke]
    generalize hw : ({ user with tokens := revoke user.tokens t } : User) = w
    have hid : w._id = user._id := by rw [← hw]
    rw [← hid, getById_save, getById_save]

/-- Witness of C15: the sample account without sessions logs out with a token
it does not hold; a session set with the token twice loses both entries. -/
theorem revoke_idempotent_witness :
    revoke (revoke [⟨"a"⟩, ⟨"b"⟩, ⟨"a"⟩] "a") "a" = revoke [⟨"a"⟩, ⟨"b"⟩, ⟨"a"⟩] "a" ∧
    revoke [⟨"b"⟩] "a" = [⟨"b"⟩] ∧
    getById bob._id (logout bob "sess-1" sampleStore).2 = some bob :=
  have h := revoke_idempotent [⟨"a"⟩, ⟨"b"⟩, ⟨"a"⟩] "a" bob sampleStore
  have h2 := revoke_idempotent [⟨"b"⟩] "a" bob sampleStore
  ⟨h.1, h2.2.1 (by decide), h.2.2.2.1 (by decide)⟩

/-- C16: logout-all of the account `user` stores the account with an empty
session set and all its other fields as they were, so no token is a member of
the account's session set afterwards. -/
theorem logoutAll_clears_sessions (user : User) (s : Store) (t : TokenEntry) :
    (logoutAll user s).1 = ⟨200, .message "Logged out of all sessions"⟩ ∧
    getById user._id (logoutAll user s).2 = some { user with tokens := [] } ∧
    (getById user._id (logoutAll user s).2).map (fun a => a.tokens) = some [] ∧
    (getById user._id (logoutAll user s).2).any (fun a => decide (t ∈ a.tokens)) = false := by
  have hget : getById user._id (save { user with tokens := [] } s) =
      some { user with tokens := [] } := getById_save_of_id s rfl
  rw [logoutAll_eq]
  refine ⟨rfl, hget, ?_, ?_⟩
  · show Option.map _ (getById user._id (save _ s)) = _
    rw [hget]
    rfl
  · show Option.any _ (getById user._id (save _ s)) = _
    rw [hget]
    simp

/-! ## Registration -/

theorem save_of_not_mem {s : Store} {u : User} (h : ∀ v ∈ s, v._id ≠ u._id) :
    save u s = s ++ [u] := by
  unfold save
  rw [if_neg]
  intro hany
  rw [List.any_eq_true] at hany
  obtain ⟨v, hv, hid⟩ := hany
  exact h v hv (by simpa using hid)

theorem save_append_same {s : Store} {u w : User} (h : ∀ v ∈ s, v._id ≠ u._id)
    (hid : w._id = u._id) : save w (s ++ [u]) = s ++ [w] := by
  have hany : (s ++ [u]).any (fun v => v._id == w._id) = true := by
    rw [List.any_eq_true]
    exact ⟨u, by simp, by simp [hid]⟩
  unfold save
  rw [if_pos hany, List.map_append]
  congr 1
  · conv_rhs => rw [← List.map_id s]
    apply List.map_congr_left
    intro v hv
    have := h v hv
    simp [hid, this]
  · simp [hid]

theorem register_of_found {P : Primitives} {newId : Nat} {fresh : String}
    {req : RegisterRequest} {s : Store} {u : User}
    (hfind : findOne (byEmail req.email) s = some u) :
    register P newId fresh req s = (⟨400, .error "Email already in use"⟩, s) := by
  simp [register, registerBody, hfind, pure, Except.pure]

theorem register_of_new {P : Primitives} {newId : Nat} {fresh : String}
    {req : RegisterRequest} {s : Store}
    (hnew : findOne (byEmail req.email) s = none) :
    register P newId fresh req s =
      (⟨201, .userToken (registeredUser P newId fresh req) fresh⟩,
       save (registeredUser P newId fresh req) (save (presave P (newUser newId req)) s)) := by
  simp [register, registerBody, hnew, generateAuthToken, registeredUser, presave,
    assignPassword, newUser, pure, Except.pure]

/-- C17: when the store contains an account with the requested email,
registration answers `400 { error: 'Email already in use' }` and leaves the
store as it is: no account is created, no token is issued and the existing
account is unchanged. -/
theorem register_duplicate_email (P : Primitives) (newId : Nat) (fresh : String)
    (req : RegisterRequest) (s : Store) (u : User)
    (hu : u ∈ s) (hemail : u.email = normalizeEmail req.email) :
    register P newId fresh req s = (⟨400, .error "Email already in use"⟩, s) := by
  cases hfind : findOne (byEmail req.email) s with
  | some v => exact register_of_found hfind
  | none =>
    unfold findOne at hfind
    rw [List.find?_eq_none] at hfind
    exact absurd (by simp [byEmail, hemail]) (hfind u hu)

/-- Witness of C17: registering the email of the sample account again. -/
theorem register_duplicate_email_witness :
    register samplePrimitives 3 "tok-9"
        ⟨"Alice II", "alice@firm.example", "pw-2", none, none⟩ sampleStore =
      (⟨400, .error "Email already in use"⟩, sampleStore) :=
  register_duplicate_email samplePrimitives 3 "tok-9"
    ⟨"Alice II", "alice@firm.example", "pw-2", none, none⟩ sampleStore alice
    (by decide) (by decide)

/-- C19: a successful registration creates the account with the role
`role || 'staff'`: the role is `'staff'` when the request gives none (or an
empty one), and the requested role when the request gives one. -/
theorem register_role (P : Primitives) (newId : Nat) (fresh : String)
    (req : RegisterRequest) (s : Store)
    (hnew : findOne (byEmail req.email) s = none) :
    (register P newId fresh req s).1 =
      ⟨201, .userToken (registeredUser P newId fresh req) fresh⟩ ∧
    (getById newId (register P newId fresh req s).2).map (fun a => a.role) =
      some (registeredUser P newId fresh req).role ∧
    (req.role = none → (registeredUser P newId fresh req).role = "staff") ∧
    (req.role = some "" → (registeredUser P newId fresh req).role = "staff") ∧
    (∀ r, req.role = some r → r ≠ "" → (registeredUser P newId fresh req).role = r) := by
  have hget : getById newId (save (registeredUser P newId fresh req)
      (save (presave P (newUser newId req)) s)) = some (registeredUser P newId fresh req) :=
    getById_save_of_id _ rfl
  rw [register_of_new hnew]
  refine ⟨rfl, ?_, ?_, ?_, ?_⟩
  · show Option.map _ (getById newId (save _ (save _ s))) = _
    rw [hget]
    rfl
  · intro h
    simp [registeredUser, presave, assignPassword, newUser, roleOrStaff, h]
  · intro h
    simp [registeredUser, presave, assignPassword, newUser, roleOrStaff, h]
  · intro r h hr
    simp [registeredUser, presave, assignPassword, newUser, roleOrStaff, h, hr]

/-- Witness of C19: a registration without role and one with the role `admin`. -/
theorem register_role_witness :
    (getById 3 (register samplePrimitives 3 "tok-9"
      ⟨"Carol", "carol@firm.example", "pw-c", none, none⟩ sampleStore).2).map
        (fun a => a.role) = some "staff" ∧
    (getById 3 (register samplePrimitives 3 "tok-9"
      ⟨"Carol", "carol@firm.example", "pw-c", some "admin", none⟩ sampleStore).2).map
        (fun a => a.role) = some "admin" :=
  have h1 := register_role samplePrimitives 3 "tok-9"
    ⟨"Carol", "carol@firm.example", "pw-c", none, none⟩ sampleStore (by decide)
  have h2 := register_role samplePrimitives 3 "tok-9"
    ⟨"Carol", "carol@firm.example", "pw-c", some "admin", none⟩ sampleStore (by decide)
  ⟨h1.2.1.trans (congrArg some (h1.2.2.1 rfl)),
   h2.2.1.trans (congrArg some (h2.2.2.2.2 "admin" rfl (by decide)))⟩

/-- C20: a registration whose email is not present yet, under a new `_id`,
answers `201 { user, token }` with the created account and the issued token,
and the store afterwards is the old one with that account appended: the
account is persisted and its session set holds the token. -/
theorem register_success (P : Primitives) (newId : Nat) (fresh : String)
    (req : RegisterRequest) (s : Store)
    (hnew : findOne (byEmail req.email) s = none)
    (hid : ∀ v ∈ s, v._id ≠ newId) :
    register P newId fresh req s =
      (⟨201, .userToken (registeredUser P newId fresh req) fresh⟩,
       s ++ [registeredUser P newId fresh req]) ∧
    (registeredUser P newId fresh req).tokens = [⟨fresh⟩] ∧
    getById newId (register P newId fresh req s).2 =
      some (registeredUser P newId fresh req) := by
  have hs1 : save (presave P (newUser newId req)) s = s ++ [presave P (newUser newId req)] :=
    save_of_not_mem hid
  have hs2 : save (registeredUser P newId fresh req) (s ++ [presave P (newUser newId req)]) =
      s ++ [registeredUser P newId fresh req] := save_append_same hid rfl
  rw [register_of_new hnew, hs1, hs2]
  refine ⟨rfl, rfl, ?_⟩
  rw [← hs2, ← hs1]
  exact getById_save_of_id _ rfl

/-- Witness of C20: a third account is registered in the sample store. -/
theorem register_success_witness :
    register samplePrimitives 3 "tok-9"
        ⟨"Carol", "Carol@Firm.example", "pw-c", none, some "Tax"⟩ sampleStore =
      (⟨201, .userToken (registeredUser samplePrimitives 3 "tok-9"
          ⟨"Carol", "Carol@Firm.example", "pw-c", none, some "Tax"⟩) "tok-9"⟩,
       sampleStore ++ [registeredUser samplePrimitives 3 "tok-9"
          ⟨"Carol", "Carol@Firm.example", "pw-c", none, some "Tax"⟩]) ∧
    registeredUser samplePrimitives 3 "tok-9"
        ⟨"Carol", "Carol@Firm.example", "pw-c", none, some "Tax"⟩ =
      { _id := 3, name := "Carol", email := "carol@firm.example", password := "h:pw-c",
        role := "staff", department := some "Tax", mfaEnabled := false, mfaSecret := none,
        tokens := [⟨"tok-9"⟩], resetPasswordToken := none, resetPasswordExpires := none,
        lastLogin := none } :=
  ⟨(register_success samplePrimitives 3 "tok-9"
      ⟨"Carol", "Carol@Firm.example", "pw-c", none, some "Tax"⟩ sampleStore
      (by decide) (by decide)).1, by decide⟩

/-! ## Case normalisation of emails -/

theorem map_toLower_eq_of_all : ∀ (la lb : List Char), la.length = lb.length →
    (la.zip lb).all (fun p => p.1.toLower == p.2.toLower) = true →
    la.map Char.toLower = lb.map Char.toLower
  | [], [], _, _ => rfl
  | [], _ :: _, hlen, _ => by simp at hlen
  | _ :: _, [], hlen, _ => by simp at hlen
  | a :: la, b :: lb, hlen, hall => by
    simp only [List.zip_cons_cons, List.all_cons, Bool.and_eq_true, beq_iff_eq] at hall
    simp only [List.length_cons, Nat.add_right_cancel_iff] at hlen
    simp only [List.map_cons, hall.1, map_toLower_eq_of_all la lb hlen hall.2]

theorem normalizeEmail_eq_of_sameUpToCase {a b : String} (h : sameUpToCase a b = true) :
    normalizeEmail a = normalizeEmail b := by
  unfold sameUpToCase at h
  simp only [Bool.and_eq_true, beq_iff_eq] at h
  unfold normalizeEmail
  rw [map_toLower_eq_of_all a.data b.data h.1 (by simpa using h.2)]

theorem byEmail_eq_of_normalizeEmail_eq {a b : String}
    (h : normalizeEmail a = normalizeEmail b) : byEmail a = byEmail b := by
  funext u
  simp [byEmail, h]

/-- C18: the account lookups by email of register, login and the reset
request are case-normalized: for two emails that differ in letter case only,
the lookup resolves to the same account and each of the three handlers gives
the same response and store; so registering an email that differs only in
case from the email of an existing account answers
`400 { error: 'Email already in use' }`. -/
theorem email_lookup_case_normalized (P : Primitives) (now newId : Nat)
    (fresh e1 e2 password : String) (mfaToken : Option String) (rq : RegisterRequest)
    (s : Store) (u : User)
    (hcase : sameUpToCase e1 e2 = true) :
    findOne (byEmail e1) s = findOne (byEmail e2) s ∧
    register P newId fresh { rq with email := e1 } s =
      register P newId fresh { rq with email := e2 } s ∧
    login P now fresh ⟨e1, password, mfaToken⟩ s =
      login P now fresh ⟨e2, password, mfaToken⟩ s ∧
    passwordResetRequest now fresh e1 s = passwordResetRequest now fresh e2 s ∧
    (u ∈ s → u.email = normalizeEmail e1 →
      register P newId fresh { rq with email := e2 } s =
        (⟨400, .error "Email already in use"⟩, s)) := by
  have hn := normalizeEmail_eq_of_sameUpToCase hcase
  have hb := byEmail_eq_of_normalizeEmail_eq hn
  refine ⟨by rw [hb], ?_, ?_, ?_, ?_⟩
  · simp only [register, registerBody, presave, newUser, assignPassword, hb, hn]
  · simp only [login, loginBody, findByCredentials, hb]
  · simp only [passwordResetRequest, passwordResetRequestBody, hb]
  · intro hu hemail
    cases hfind : findOne (byEmail e2) s with
    | some v => exact register_of_found hfind
    | none =>
      unfold findOne at hfind
      rw [List.find?_eq_none] at hfind
      exact absurd (by simp [byEmail, hemail, hn]) (hfind u hu)

/-- Witness of C18: the email of the sample account written with capitals. -/
theorem email_lookup_case_normalized_witness :
    findOne (byEmail "Alice@Firm.Example") sampleStore = some alice ∧
    login samplePrimitives 1000 "tok-9" ⟨"Alice@Firm.Example", "pw-a", some "123456"⟩
        sampleStore =
      login samplePrimitives 1000 "tok-9" ⟨"alice@firm.example", "pw-a", some "123456"⟩
        sampleStore ∧
    register samplePrimitives 3 "tok-9"
        ⟨"Alice II", "Alice@Firm.Example", "pw-2", none, none⟩ sampleStore =
      (⟨400, .error "Email already in use"⟩, sampleStore) :=
  have h := email_lookup_case_normalized samplePrimitives 1000 3 "tok-9"
    "alice@firm.example" "Alice@Firm.Example" "pw-a" (some "123456")
    ⟨"Alice II", "", "pw-2", none, none⟩ sampleStore alice (by decide)
  ⟨h.1.symm.trans (by decide), h.2.2.1.symm, h.2.2.2.2 (by decide) (by decide)⟩

/-! ## Sharing a document -/

theorem modify_length_append {α : Type} (f : α → α) (x : α) :
    ∀ (A : List α), (A ++ [x]).modify f A.length = A ++ [f x]
  | [] => rfl
  | a :: A => by
    simp only [List.cons_append, List.length_cons, List.modify_succ_cons,
      modify_length_append f x A]

theorem handleShareDocument_new {A : List Access} {u p : String}
    (h : ∀ a ∈ A, a.user.idField ≠ some u) :
    handleShareDocument A u p = A ++ [{ user := .id u, permission := p }] := by
  have hnone : A.findIdx? (fun access => access.user.idField == some u) = none := by
    rw [List.findIdx?_eq_none_iff]
    intro a ha
    simpa using h a ha
  simp [handleShareDocument, hnone]

theorem handleShareDocument_last {A : List Access} {u p q : String}
    (h : ∀ a ∈ A, a.user.idField ≠ some u) :
    handleShareDocument (A ++ [{ user := .document u, permission := q }]) u p =
      A ++ [{ user := .document u, permission := p }] := by
  have hnone : A.findIdx? (fun access => access.user.idField == some u) = none := by
    rw [List.findIdx?_eq_none_iff]
    intro a ha
    simpa using h a ha
  have hsome : (A ++ [({ user := .document u, permission := q } : Access)]).findIdx?
      (fun access => access.user.idField == some u) = some A.length := by
    rw [List.findIdx?_append, hnone]
    simp [Grantee.idField]
  unfold handleShareDocument
  rw [hsome]
  exact modify_length_append _ _ A

/-- Two grants to a grantee that no user-document entry of the list refers
to: the second call, made on the list the first one built, does not find the
entry the first one pushed and pushes another. -/
theorem handleShareDocument_twice_posted {A : List Access} {u p1 p2 : String}
    (h : ∀ a ∈ A, a.user.idField ≠ some u) :
    handleShareDocument (handleShareDocument A u p1) u p2 =
      A ++ [{ user := .id u, permission := p1 }, { user := .id u, permission := p2 }] := by
  have h1 : ∀ a ∈ A ++ [({ user := .id u, permission := p1 } : Access)],
      a.user.idField ≠ some u := by
    intro a ha
    rw [List.mem_append] at ha
    rcases ha with ha | ha
    · exact h a ha
    · rw [List.mem_singleton] at ha
      rw [ha]
      simp [Grantee.idField]
  rw [handleShareDocument_new h, handleShareDocument_new h1, List.append_assoc]
  rfl

/-- C13, the failing input: from a grant list without the grantee `u-carol`,
a first grant of `read` pushes the entry `{ user: 'u-carol', permission:
'read' }`; a second grant of `write` on that list looks for an entry whose
`access.user._id` is `u-carol`, does not find the pushed one (its `user` is
the bare id) and pushes a second entry: the grantee has two entries, the
stale `read` among them. The same happens on the one-entry list
`[{ user: 'u-carol', permission: 'read' }]`. An entry whose `user` is a user
document is updated in place. -/
theorem handleShareDocument_twice_duplicate :
    handleShareDocument sampleAccessRights "u-carol" "read" =
      [{ user := .document "u-bob", permission := "delete" },
       { user := .id "u-carol", permission := "read" }] ∧
    handleShareDocument (handleShareDocument sampleAccessRights "u-carol" "read")
        "u-carol" "write" =
      [{ user := .document "u-bob", permission := "delete" },
       { user := .id "u-carol", permission := "read" },
       { user := .id "u-carol", permission := "write" }] ∧
    (handleShareDocument (handleShareDocument sampleAccessRights "u-carol" "read")
        "u-carol" "write").filter (fun a => a.user.key == "u-carol") =
      [{ user := .id "u-carol", permission := "read" },
       { user := .id "u-carol", permission := "write" }] ∧
    handleShareDocument [{ user := .id "u-carol", permission := "read" }]
        "u-carol" "write" =
      [{ user := .id "u-carol", permission := "read" },
       { user := .id "u-carol", permission := "write" }] ∧
    handleShareDocument [{ user := .document "u-carol", permission := "read" }]
        "u-carol" "write" =
      [{ user := .document "u-carol", permission := "write" }] := by
  decide

/-! ## Login: last login and store failures -/

theorem mfaGate_cases (P : Primitives) (now : Nat) (user : User) (mfaToken : Option String) :
    mfaGate P now user mfaToken = none ∨
    mfaGate P now user mfaToken = some ⟨200, .requireMfa "MFA token required"⟩ ∨
    mfaGate P now user mfaToken = some ⟨401, .error "Invalid MFA token"⟩ := by
  unfold mfaGate
  by_cases h1 : user.mfaEnabled = true
  · by_cases h2 : notProvided mfaToken = true
    · simp [h1, h2]
    · by_cases h3 : P.totpVerify (mfaVerifyOptions user mfaToken) now = true
      · simp [h1, h2, h3]
      · simp [h1, h2, h3]
  · simp [h1]

/-- C21: `lastLogin` is written by exactly the logins that end in full
success. Every login either answers `200 { user, token }`, and then the
account returned has `lastLogin` equal to the current time and is the
account stored under its `_id`; or it answers one of `401 'Unable to
login'`, `200 requireMfa`, `401 'Invalid MFA token'`, and then the store, and
with it every `lastLogin`, is unchanged. -/
theorem login_lastLogin (P : Primitives) (now : Nat) (fresh : String) (req : LoginRequest)
    (s : Store) :
    (∃ u, (login P now fresh req s).1 = ⟨200, .userToken u fresh⟩ ∧
      u.lastLogin = some now ∧ getById u._id (login P now fresh req s).2 = some u) ∨
    ((login P now fresh req s).2 = s ∧
      ((login P now fresh req s).1 = ⟨401, .error "Unable to login"⟩ ∨
       (login P now fresh req s).1 = ⟨200, .requireMfa "MFA token required"⟩ ∨
       (login P now fresh req s).1 = ⟨401, .error "Invalid MFA token"⟩)) := by
  unfold login loginBody
  cases hc : findByCredentials P s req.email req.password with
  | error e =>
    right
    simp [bind, Except.bind]
  | ok user =>
    rcases mfaGate_cases P now user req.mfaToken with hg | hg | hg
    · left
      refine ⟨{ user with tokens := user.tokens ++ [⟨fresh⟩], lastLogin := some now }, ?_⟩
      simp only [bind, Except.bind, hg, generateAuthToken, pure, Except.pure]
      exact ⟨trivial, trivial, getById_save_of_id _ rfl⟩
    · right
      simp [bind, Except.bind, hg, pure, Except.pure]
    · right
      simp [bind, Except.bind, hg, pure, Except.pure]

theorem loginUnder_none (P : Primitives) (now : Nat) (fresh : String) (req : LoginRequest)
    (s : Store) : loginUnder none P now fresh req s = login P now fresh req s := by
  unfold loginUnder loginBodyUnder login loginBody
  cases hc : findByCredentials P s req.email req.password with
  | error e => simp [bind, Except.bind]
  | ok user =>
    cases hg : mfaGate P now user req.mfaToken with
    | none => simp [bind, Except.bind, hg, generateAuthToken, pure, Except.pure]
    | some r => simp [bind, Except.bind, hg, pure, Except.pure]

/-- C22, refuted as stated: with the lookup of the store failing, a login
with the right password and the right one-time code gets the very response
a login with a wrong password gets from a working store,
`401 { error: 'Unable to login' }`: the caller cannot tell a store failure
from invalid credentials. -/
theorem login_store_failure_counterexample :
    (loginUnder (some .lookup) samplePrimitives 1000 "tok-9"
      ⟨"alice@firm.example", "pw-a", some "123456"⟩ sampleStore).1 =
      ⟨401, .error "Unable to login"⟩ ∧
    (login samplePrimitives 1000 "tok-9"
      ⟨"alice@firm.example", "wrong", some "123456"⟩ sampleStore).1 =
      ⟨401, .error "Unable to login"⟩ ∧
    (loginUnder (some .lookup) samplePrimitives 1000 "tok-9"
      ⟨"alice@firm.example", "pw-a", some "123456"⟩ sampleStore).1 =
    (login samplePrimitives 1000 "tok-9"
      ⟨"alice@firm.example", "wrong", some "123456"⟩ sampleStore).1 := by
  decide

/-- A fault in an operation the login does not reach changes nothing: a
login that ends at the credential check or at the second-factor gate gives
the answer of the login without fault. -/
theorem loginUnder_cases (fault : StoreFault) (P : Primitives) (now : Nat)
    (fresh : String) (req : LoginRequest) (s : Store) :
    (loginUnder (some fault) P now fresh req s).1 = ⟨401, .error "Unable to login"⟩ ∨
    loginUnder (some fault) P now fresh req s = login P now fresh req s := by
  unfold loginUnder loginBodyUnder login loginBody
  cases fault with
  | lookup => left; simp
  | issue =>
    cases hc : findByCredentials P s req.email req.password with
    | error e => left; simp
    | ok user =>
      cases hg : mfaGate P now user req.mfaToken with
      | none => left; simp [hg]
      | some r => right; simp [bind, Except.bind, hg, pure, Except.pure]
  | save =>
    cases hc : findByCredentials P s req.email req.password with
    | error e => left; simp
    | ok user =>
      cases hg : mfaGate P now user req.mfaToken with
      | none => left; simp [hg, generateAuthToken]
      | some r => right; simp [bind, Except.bind, hg, pure, Except.pure]

/-- C22, amended: a failure of the persistence layer during login is
answered by the catch-all of the handler with `401 { error: 'Unable to
login' }`, the response of invalid credentials. For a login that would
succeed (the credentials verify and the second-factor gate lets it through),
so that each of the three store operations is reached: a failing lookup
gives that response and leaves the store as it is; a failing token issuance
gives that response and leaves the store as it is; a failing final save
gives that response, the store holding the issued token but no new
`lastLogin`. The failing lookup gives that response for every request. -/
theorem login_store_failure (P : Primitives) (now : Nat) (fresh email password : String)
    (mfaToken : Option String) (s : Store) (u : User)
    (hfind : findOne (byEmail email) s = some u)
    (hpw : P.compare password u.password = true)
    (hgate : mfaGate P now u mfaToken = none) :
    (login P now fresh ⟨email, password, mfaToken⟩ s).1 =
      ⟨200, .userToken { u with tokens := u.tokens ++ [⟨fresh⟩], lastLogin := some now }
        fresh⟩ ∧
    loginUnder (some .lookup) P now fresh ⟨email, password, mfaToken⟩ s =
      (⟨401, .error "Unable to login"⟩, s) ∧
    loginUnder (some .issue) P now fresh ⟨email, password, mfaToken⟩ s =
      (⟨401, .error "Unable to login"⟩, s) ∧
    loginUnder (some .save) P now fresh ⟨email, password, mfaToken⟩ s =
      (⟨401, .error "Unable to login"⟩,
       save { u with tokens := u.tokens ++ [⟨fresh⟩] } s) ∧
    (∀ (req2 : LoginRequest) (s2 : Store),
      loginUnder (some .lookup) P now fresh req2 s2 =
        (⟨401, .error "Unable to login"⟩, s2)) := by
  have hcred := findByCredentials_ok hfind hpw
  refine ⟨?_, ?_, ?_, ?_, ?_⟩
  · rw [login_of_gate_none hfind hpw hgate]
  · simp [loginUnder, loginBodyUnder]
  · simp [loginUnder, loginBodyUnder, hcred, hgate]
  · simp [loginUnder, loginBodyUnder, hcred, hgate, generateAuthToken]
  · intro req2 s2
    simp [loginUnder, loginBodyUnder]

/-- Witness of C22 (amended): the sample account logs in with the right
password and the right one-time code while each store operation fails in
turn. -/
theorem login_store_failure_witness :
    (login samplePrimitives 1000 "tok-9" ⟨"alice@firm.example", "pw-a", some "123456"⟩
      sampleStore).1 =
      ⟨200, .userToken { alice with tokens := alice.tokens ++ [⟨"tok-9"⟩],
                                    lastLogin := some 1000 } "tok-9"⟩ ∧
    loginUnder (some .lookup) samplePrimitives 1000 "tok-9"
        ⟨"alice@firm.example", "pw-a", some "123456"⟩ sampleStore =
      (⟨401, .error "Unable to login"⟩, sampleStore) ∧
    loginUnder (some .issue) samplePrimitives 1000 "tok-9"
        ⟨"alice@firm.example", "pw-a", some "123456"⟩ sampleStore =
      (⟨401, .error "Unable to login"⟩, sampleStore) ∧
    loginUnder (some .save) samplePrimitives 1000 "tok-9"
        ⟨"alice@firm.example", "pw-a", some "123456"⟩ sampleStore =
      (⟨401, .error "Unable to login"⟩,
       save { alice with tokens := alice.tokens ++ [⟨"tok-9"⟩] } sampleStore) :=
  have h := login_store_failure samplePrimitives 1000 "tok-9" "alice@firm.example" "pw-a"
    (some "123456") sampleStore alice (by decide) (by decide) (by decide)
  ⟨h.1, h.2.1, h.2.2.1, h.2.2.2.1⟩

/-! ## Access control -/

theorem covers_iff_rank (p o : Permission) : covers p o = true ↔ o.rank ≤ p.rank := by
  cases p <;> cases o <;> simp [covers, Permission.rank]

/-- C23: `authorize` equals the reference rule for every identity, document
and operation; the owner is allowed every operation whatever the grant list
(the empty one included); an identity that is not the owner and has no grant
is denied; and a grantee that is not the owner is allowed exactly what its
level covers: with `read` only read, with `write` read and write but not
delete, with `delete` all three. -/
theorem authorize_eq_reference (identity : String) (document : Document)
    (operation : Permission) (g : Grant) :
    authorize identity document operation =
      authorizeReference identity document operation ∧
    (identity = document.owner → authorize identity document operation = .allow) ∧
    authorize document.owner { document with accessRights := [] } operation = .allow ∧
    (identity ≠ document.owner →
      document.accessRights.find? (fun x => x.grantee == identity) = none →
      authorize identity document operation = .deny) ∧
    (identity ≠ document.owner →
      document.accessRights.find? (fun x => x.grantee == identity) = some g →
      (authorize identity document operation = .allow ↔
        covers g.permissionLevel operation = true)) ∧
    (covers .read .read = true ∧ covers .read .write = false ∧
      covers .read .delete = false) ∧
    (covers .write .read = true ∧ covers .write .write = true ∧
      covers .write .delete = false) ∧
    (covers .delete .read = true ∧ covers .delete .write = true ∧
      covers .delete .delete = true) := by
  refine ⟨?_, ?_, ?_, ?_, ?_, ?_, ?_, ?_⟩
  · unfold authorize authorizeReference
    by_cases ho : identity = document.owner
    · simp [ho]
    · simp only [ho, if_false]
      cases document.accessRights.find? (fun x => x.grantee == identity) with
      | none => rfl
      | some x =>
        by_cases hc : covers x.permissionLevel operation = true
        · simp [hc, (covers_iff_rank _ _).mp hc]
        · have hr : ¬ operation.rank ≤ x.permissionLevel.rank :=
            fun h => hc ((covers_iff_rank _ _).mpr h)
          simp [hc, hr]
  · intro ho
    simp [authorize, ho]
  · simp [authorize]
  · intro ho hnone
    simp [authorize, ho, hnone]
  · intro ho hsome
    simp only [authorize, ho, if_false, hsome]
    rw [covers_iff_rank]
    by_cases hr : operation.rank ≤ g.permissionLevel.rank <;> simp [hr]
  · decide
  · decide
  · decide

/-- Witness of C23: the sample document, whose grantee `u-bob` has `read`
and asks for `write`, and whose grantee `u-dave` has `delete`. -/
theorem authorize_eq_reference_witness :
    authorize "u-bob" sampleDocument .write = .deny ∧
    authorize "u-dave" sampleDocument .read = .allow ∧
    authorize "u-alice" sampleDocument .delete = .allow ∧
    authorize "u-erin" sampleDocument .read = .deny :=
  have hb := authorize_eq_reference "u-bob" sampleDocument .write ⟨"u-bob", .read⟩
  have hd := authorize_eq_reference "u-dave" sampleDocument .read ⟨"u-dave", .delete⟩
  have ha := authorize_eq_reference "u-alice" sampleDocument .delete ⟨"u-bob", .read⟩
  have he := authorize_eq_reference "u-erin" sampleDocument .read ⟨"u-bob", .read⟩
  ⟨hb.1.trans (by decide), (hd.2.2.2.2.1 (by decide) (by decide)).mpr (by decide),
   ha.2.1 (by decide), he.2.2.2.1 (by decide) (by decide)⟩

/-! ## The protected route -/

/-- C26: `ProtectedRoute` renders the protected component if and only if
`loading` is false and `isAuthenticated` is true; while loading it shows the
loading indicator whatever `isAuthenticated` is; when not loading and not
authenticated it redirects to `/login` with the requested location. -/
theorem protectedRoute_component_iff (loading isAuthenticated : Bool) (location : String) :
    (protectedRoute loading isAuthenticated location = .component ↔
      loading = false ∧ isAuthenticated = true) ∧
    (loading = true → protectedRoute loading isAuthenticated location = .loading) ∧
    (loading = false → isAuthenticated = false →
      protectedRoute loading isAuthenticated location = .redirect "/login" location) := by
  cases loading <;> cases isAuthenticated <;> simp [protectedRoute]

/-- Witness of C26: the four combinations of the two flags. -/
theorem protectedRoute_component_iff_witness :
    protectedRoute false true "/documents" = .component ∧
    protectedRoute true true "/documents" = .loading ∧
    protectedRoute true false "/documents" = .loading ∧
    protectedRoute false false "/documents" = .redirect "/login" "/documents" :=
  ⟨(protectedRoute_component_iff false true "/documents").1.mpr ⟨rfl, rfl⟩,
   (protectedRoute_component_iff true true "/documents").2.1 rfl,
   (protectedRoute_component_iff true false "/documents").2.1 rfl,
   (protectedRoute_component_iff false false "/documents").2.2 rfl rfl⟩

/-! ## The upload wizard -/

theorem isValidFile_iff (file : File) :
    isValidFile file = true ↔ file.size ≤ sizeLimit ∧ file.type ∈ validTypes := by
  unfold isValidFile
  by_cases hs : file.size > sizeLimit
  · simp [hs]
  · by_cases ht : file.type ∈ validTypes
    · simp [hs, ht]
      omega
    · simp [hs, ht]

/-- C25: `onDrop` yields the existing files followed by exactly the dropped
files, in their order, whose size is at most 52428800 bytes (50 MB) and whose
type is one of the seven supported MIME types; a file is kept if and only if
it meets both conditions, so a file of exactly 50 MB is kept and one byte
more is rejected. -/
theorem onDrop_files (st : UploadState) (acceptedFiles : List File) (file : File) :
    (onDrop st acceptedFiles).files =
      st.files ++ acceptedFiles.filter (fun f =>
        decide (f.size ≤ 52428800) &&
        decide (f.type ∈
          ["application/pdf",
           "application/vnd.openxmlformats-officedocument.wordprocessingml.document",
           "application/msword",
           "application/vnd.openxmlformats-officedocument.spreadsheetml.sheet",
           "application/vnd.ms-excel",
           "image/jpeg",
           "image/png"])) ∧
    (file ∈ (onDrop st acceptedFiles).files ↔
      file ∈ st.files ∨
        (file ∈ acceptedFiles ∧ file.size ≤ 50 * 1024 * 1024 ∧ file.type ∈ validTypes)) ∧
    isValidFile { file with size := 52428800, type := "application/pdf" } = true ∧
    isValidFile { file with size := 52428801, type := "application/pdf" } = false := by
  refine ⟨?_, ?_, by simp [isValidFile, sizeLimit, validTypes],
    by simp [isValidFile, sizeLimit]⟩
  · unfold onDrop
    simp only
    congr 1
    apply List.filter_congr
    intro f _
    have h := isValidFile_iff f
    by_cases hv : isValidFile f = true
    · have := h.mp hv
      simp only [sizeLimit, validTypes] at this
      simp [hv, this.1, this.2]
    · have hn : ¬ (f.size ≤ sizeLimit ∧ f.type ∈ validTypes) := fun hc => hv (h.mpr hc)
      simp only [sizeLimit, validTypes] at hn
      simp only [Bool.not_eq_true] at hv
      rw [hv]
      symm
      simp only [Bool.and_eq_false_iff, decide_eq_false_iff_not]
      by_cases hs : f.size ≤ 52428800
      · right
        exact fun ht => hn ⟨by omega, ht⟩
      · left
        exact hs
  · unfold onDrop
    simp only [List.mem_append, List.mem_filter, isValidFile_iff, sizeLimit]

/-- An enabled event keeps the invariant of the wizard. -/
theorem uploadInvariant_step (st : UploadState) (e : UploadEvent)
    (hinv : uploadInvariant st) (he : uploadEnabled st e = true) :
    uploadInvariant (uploadStep st e) := by
  obtain ⟨hstep, hfiles, hmeta⟩ := hinv
  cases e with
  | drop acceptedFiles =>
    have h0 : st.activeStep = 0 := by simpa [uploadEnabled] using he
    refine ⟨Or.inl h0, ?_, ?_⟩
    · intro h
      simp only [uploadStep, onDrop] at h
      omega
    · intro h
      simp only [uploadStep, onDrop] at h
      omega
  | remove fileIndex =>
    have h0 : st.activeStep = 0 := by simpa [uploadEnabled] using he
    refine ⟨Or.inl h0, ?_, ?_⟩
    · intro h
      simp only [uploadStep, removeFile] at h
      omega
    · intro h
      simp only [uploadStep, removeFile] at h
      omega
  | setDocumentType value =>
    have h1 : st.activeStep = 1 := by simpa [uploadEnabled] using he
    refine ⟨Or.inr (Or.inl h1), ?_, ?_⟩
    · intro h
      exact hfiles h
    · intro h
      simp only [uploadStep] at h
      omega
  | setDocumentTitle value =>
    have h1 : st.activeStep = 1 := by simpa [uploadEnabled] using he
    refine ⟨Or.inr (Or.inl h1), ?_, ?_⟩
    · intro h
      exact hfiles h
    · intro h
      simp only [uploadStep] at h
      omega
  | next =>
    simp only [uploadEnabled, stepsLength, Bool.and_eq_true, Bool.not_eq_true',
      beq_eq_false_iff_ne, ne_eq] at he
    obtain ⟨hlast, hdis⟩ := he
    rcases hstep with h0 | h1 | h2
    · have hne : st.files ≠ [] := by
        intro hnil
        simp [isNextDisabled, h0, hnil] at hdis
      refine ⟨Or.inr (Or.inl ?_), fun _ => hne, ?_⟩
      · simp [uploadStep, handleNext, h0]
      · intro h
        simp [uploadStep, handleNext, h0] at h
    · have hm : st.documentType ≠ "" ∧ st.documentTitle ≠ "" := by
        simp [isNextDisabled, h1] at hdis
        exact hdis
      refine ⟨Or.inr (Or.inr ?_), fun _ => hfiles (by omega), fun _ => hm⟩
      simp [uploadStep, handleNext, h1]
    · exact absurd (by rw [h2]; norm_num) hlast
  | back =>
    have hne : st.activeStep ≠ 0 := by simpa [uploadEnabled] using he
    rcases hstep with h0 | h1 | h2
    · exact absurd h0 hne
    · refine ⟨Or.inl ?_, ?_, ?_⟩
      · simp [uploadStep, handleBack, h1]
      · intro h
        simp [uploadStep, handleBack, h1] at h
      · intro h
        simp [uploadStep, handleBack, h1] at h
    · refine ⟨Or.inr (Or.inl ?_), fun _ => hfiles (by omega), ?_⟩
      · simp [uploadStep, handleBack, h2]
      · intro h
        simp [uploadStep, handleBack, h2] at h
  | reset =>
    refine ⟨Or.inl rfl, ?_, ?_⟩
    · intro h
      simp [uploadStep, handleReset] at h
    · intro h
      simp [uploadStep, handleReset] at h

/-- A run of enabled events from a reachable state ends in a reachable state. -/
theorem uploadRun_reachable : ∀ (es : List UploadEvent) (st st2 : UploadState),
    UploadReachable st → uploadRun st es = some st2 → UploadReachable st2
  | [], st, st2, hr, h => by
    simp only [uploadRun, Option.some.injEq] at h
    exact h ▸ hr
  | e :: es, st, st2, hr, h => by
    by_cases he : uploadEnabled st e = true
    · simp only [uploadRun, he, if_true] at h
      exact uploadRun_reachable es _ st2 (UploadReachable.step e hr he) h
    · simp [uploadRun, he] at h

/-- C27: every state the upload wizard reaches from its initial state by
events the UI offers (drop and remove at step 0, the metadata fields at step
1, Next when it is rendered and not disabled, Back when not at step 0, reset)
has its step among 0, 1 and 2, has a file selected whenever the step is at
least 1, and has a non-empty document type and title whenever the step is 2. -/
theorem upload_invariant (st : UploadState) (hreach : UploadReachable st) :
    (st.activeStep = 0 ∨ st.activeStep = 1 ∨ st.activeStep = 2) ∧
    (1 ≤ st.activeStep → st.files ≠ []) ∧
    (st.activeStep = 2 → st.documentType ≠ "" ∧ st.documentTitle ≠ "") := by
  have hinv : uploadInvariant st := by
    induction hreach with
    | initial =>
      refine ⟨Or.inl rfl, ?_, ?_⟩
      · intro h
        simp [initialUploadState] at h
      · intro h
        simp [initialUploadState] at h
    | step e _ he ih => exact uploadInvariant_step _ e ih he
  exact hinv

/-- Witness of C27: a file is dropped, Next, the type and the title are
filled in, Next: the wizard is at step 2 with the file and both fields. -/
theorem upload_invariant_witness :
    uploadRun initialUploadState
        [.drop [sampleFile], .next, .setDocumentType "Contract",
         .setDocumentTitle "Lease", .next] =
      some { activeStep := 2, files := [sampleFile], documentType := "Contract",
             documentTitle := "Lease", uploadError := "" } ∧
    ((2 : Int) = 0 ∨ (2 : Int) = 1 ∨ (2 : Int) = 2) ∧
    ((1 : Int) ≤ 2 → [sampleFile] ≠ []) ∧
    ((2 : Int) = 2 → "Contract" ≠ "" ∧ "Lease" ≠ "") :=
  ⟨by decide,
   upload_invariant
     { activeStep := 2, files := [sampleFile], documentType := "Contract",
       documentTitle := "Lease", uploadError := "" }
     (uploadRun_reachable
       [.drop [sampleFile], .next, .setDocumentType "Contract",
        .setDocumentTitle "Lease", .next]
       initialUploadState _ UploadReachable.initial (by decide))⟩

/-! ## Sharing a document: the frame -/

theorem Grantee.key_of_idField {g : Grantee} {u : String} (h : g.idField = some u) :
    g.key = u := by
  cases g with
  | document i => simpa [Grantee.idField, Grantee.key] using h
  | id i => simp [Grantee.idField] at h

/-- C28: the grant list `handleShareDocument` posts keeps every grant of
every other grantee at its position; it is either the input list with the
permission of one grant of the selected grantee replaced, of the same
length, or the input list with a new grant for the selected grantee appended
at the end, one longer. -/
theorem handleShareDocument_frame (accessRights : List Access)
    (selectedUser selectedPermission : String) :
    (∀ (i : Nat) (a : Access), accessRights[i]? = some a → a.user.key ≠ selectedUser →
      (handleShareDocument accessRights selectedUser selectedPermission)[i]? = some a) ∧
    ((∃ i a, accessRights[i]? = some a ∧ a.user.key = selectedUser ∧
        handleShareDocument accessRights selectedUser selectedPermission =
          accessRights.modify (fun x => { x with permission := selectedPermission }) i ∧
        (handleShareDocument accessRights selectedUser selectedPermission).length =
          accessRights.length) ∨
     (handleShareDocument accessRights selectedUser selectedPermission =
        accessRights ++ [{ user := .id selectedUser, permission := selectedPermission }] ∧
      (handleShareDocument accessRights selectedUser selectedPermission).length =
        accessRights.length + 1)) := by
  unfold handleShareDocument
  cases hidx : accessRights.findIdx?
      (fun access => access.user.idField == some selectedUser) with
  | none =>
    refine ⟨?_, Or.inr ⟨rfl, by simp⟩⟩
    intro i a ha _
    have hi : i < accessRights.length := by
      by_contra hlt
      rw [List.getElem?_eq_none (by omega)] at ha
      cases ha
    simp only
    rw [List.getElem?_append_left hi]
    exact ha
  | some k =>
    have hk := List.findIdx?_of_eq_some hidx
    cases hget : accessRights[k]? with
    | none => simp [hget] at hk
    | some b =>
      have hb : b.user.key = selectedUser := by
        simp only [hget, beq_iff_eq] at hk
        exact Grantee.key_of_idField hk
      refine ⟨?_, Or.inl ⟨k, b, hget, hb, rfl, by simp⟩⟩
      intro i a ha hne
      simp only
      rw [List.getElem?_modify, ha]
      by_cases hki : k = i
      · subst hki
        rw [hget] at ha
        cases ha
        exact absurd hb hne
      · simp [hki]

end LegalDms
